import Mathlib

/-!
Verification of the Tk Geometry node handler
(src/python/tk_houdini_geometrynode/handler.py).

The development shallowly embeds the handler's data model and operations:

* Houdini nodes are records of parameters (name, template flags, menu
  entries, keyframes, value), user data, connections, colour and position;
  the host API calls used by the handler (parm lookup, parm set,
  setKeyframe, setUserData, input/output connection manipulation) are
  translated to pure functions on those records.
* The pipeline-toolkit services (templates, context fields, publishes) and
  the filesystem are supplied as an explicit environment record, so every
  handler method becomes a pure function from environment and node to an
  Except value (Python exceptions become explicit error values).
* The external libraries used by the output-connection codec (pickle,
  zlib, base64) are not part of this repository; they are modelled as
  executable serializers that are faithful to the properties the handler
  relies on (losslessness and the base64 output alphabet), as documented
  on each definition.
-/

/-- Python exception classes observed by the handler code, as explicit
error values. -/
inductive PyErr
  | typeError
  | indexError
  | keyError
  | valueError
  | attributeError
  | nameError
  | invalidInput
  | tankError (msg : String)
deriving DecidableEq, Repr

/-! ### Python string and list helpers

Small executable models of the Python built-ins the handler calls. -/

/-- Association-list lookup, modelling Python dict access keyed by strings
(first binding wins). -/
def alistLookup {β : Type} : List (String × β) → String → Option β
  | [], _ => none
  | kv :: rest, k => if kv.1 = k then some kv.2 else alistLookup rest k

/-- Python list indexing l[i] with negative-index semantics: a negative
index counts from the end, out-of-range raises IndexError, and a
non-integer index raises TypeError.  Used for menuLabels()[parm.eval()]
style accesses and for the legacy value_map fallback. -/
def pyListGet {β : Type} [Inhabited β] (l : List β) (v : Int) : Except PyErr β :=
  let i : Int := if v < 0 then v + l.length else v
  if 0 ≤ i ∧ i < l.length then .ok (l.getD i.toNat default) else .error .indexError

/-- Index of the first occurrence of a character in a character list,
modelling Python str.find for a single-character needle (the handler only
searches for the codec separator character). -/
def pyFindCharList (c : Char) : List Char → Option Nat
  | [] => none
  | x :: xs => if x = c then some 0 else (pyFindCharList c xs).map (· + 1)

/-- Python str.find(c): index of the first occurrence, or -1 if absent. -/
def pyFindChar (s : String) (c : Char) : Int :=
  match pyFindCharList c s.data with
  | some i => i
  | none => -1

/-- Python slice s[:i] with negative-index semantics. -/
def pySliceTo (s : String) (i : Int) : String :=
  if i < 0 then String.mk (s.data.take (s.data.length + i).toNat)
  else String.mk (s.data.take i.toNat)

/-- Python slice s[i:] with negative-index semantics. -/
def pySliceFrom (s : String) (i : Int) : String :=
  if i < 0 then String.mk (s.data.drop (s.data.length + i).toNat)
  else String.mk (s.data.drop i.toNat)

/-- Substring containment on character lists, modelling the Python
expression sub in s. -/
def listContainsSub (sub s : List Char) : Bool :=
  (List.range (s.length + 1)).any (fun i => sub.isPrefixOf (s.drop i))

/-- Python str.replace(pat, repl) on character lists: replace every
(leftmost, non-overlapping) occurrence of pat by repl.  The empty pattern
is never used by the handler; it is mapped to the identity. -/
def replaceSubList (pat repl : List Char) : List Char → List Char
  | [] => []
  | c :: cs =>
    if pat ≠ [] ∧ pat.isPrefixOf (c :: cs) then
      repl ++ replaceSubList pat repl (cs.drop (pat.length - 1))
    else
      c :: replaceSubList pat repl cs
termination_by l => l.length
decreasing_by
  · simp only [List.length_drop, List.length_cons]; omega
  · simp only [List.length_cons]; omega

/-- Python str.replace for a single-character pattern (used for the
os.path.sep to "/" normalisation and the "/" to os.sep denormalisation). -/
def pyReplaceChar (s : String) (from_ to_ : Char) : String :=
  String.mk (s.data.map (fun c => if c = from_ then to_ else c))

/-- Python os.path.dirname for paths using "/" separators: everything
before the last separator (empty if there is none). -/
def pyDirname (s : String) : String :=
  match pyFindCharList '/' s.data.reverse with
  | none => ""
  | some i => String.mk (s.data.take (s.data.length - 1 - i))

/-- Python str.capitalize: first character upper-cased, the rest
lower-cased (ASCII model). -/
def pyCapitalize (s : String) : String :=
  match s.data with
  | [] => ""
  | c :: cs => String.mk (c.toUpper :: cs.map Char.toLower)

/-- Python str.split() with no argument: split on runs of spaces,
dropping empty fields (the handler first replaces "-" and "_" by spaces,
so splitting on the space character suffices). -/
def pySplitWhitespace (s : String) : List String :=
  (s.data.splitOnP (fun c => c = ' ')).filter (fun w => w ≠ []) |>.map String.mk

/-- Python str.title, modelled from the spec of the standard library
(external to this repository): the first letter of every alphabetic run
is upper-cased and the rest are lower-cased (ASCII model).  Only the
branch building a default published-file-type name uses it. -/
def pyTitle (s : String) : String :=
  let step := fun (acc : List Char × Bool) (c : Char) =>
    if c.isAlpha then
      (acc.1 ++ [if acc.2 then c.toLower else c.toUpper], true)
    else
      (acc.1 ++ [c], false)
  String.mk (s.data.foldl step ([], false)).1

/-! ### Output-connection codec

The handler serializes output connections with
base64.b64encode(zlib.compress(pickle.dumps(data))) and deserializes with
the inverse composition (handler.py, TK_OUTPUT_CONNECTION_CODECS).  The
three stages are Python standard-library functions, external to this
repository; each is modelled here by an executable stand-in that is
faithful to the properties the handler relies on: pickle is a lossless
serializer of the connection records, zlib is a lossless byte-stream
compressor, and base64 maps bytes to the 64-character alphabet plus
padding (in particular its output never contains the ":" codec
separator). -/

/-- Serialized output-connection record: the dict with keys node (target
node path) and input (input slot index) built in
save_outputs_to_user_data. -/
structure OutRec where
  node : String
  input : Nat
deriving DecidableEq, Repr

/-- Variable-length byte encoding of a natural number (7-bit groups,
continuation bit on all but the last byte).  Building block of the
modelled pickle.dumps. -/
def encNat (n : Nat) : List Nat :=
  if h : n < 128 then [n] else (n % 128 + 128) :: encNat (n / 128)
decreasing_by exact Nat.div_lt_self (by omega) (by omega)

/-- Decoder for encNat; returns the value and the remaining bytes. -/
def decNat : List Nat → Option (Nat × List Nat)
  | [] => none
  | b :: rest =>
    if b < 128 then some (b, rest)
    else
      match decNat rest with
      | some (m, rest') => some (m * 128 + (b - 128), rest')
      | none => none

theorem decNat_encNat (n : Nat) (rest : List Nat) :
    decNat (encNat n ++ rest) = some (n, rest) := by
  induction n using Nat.strong_induction_on with
  | _ n ih =>
    rw [encNat]
    by_cases h : n < 128
    · simp [h, decNat]
    · have hdiv : n / 128 < n := Nat.div_lt_self (by omega) (by omega)
      simp only [h, dite_false, List.cons_append, decNat]
      rw [if_neg (by omega), ih (n / 128) hdiv]
      simp only [Option.some.injEq, Prod.mk.injEq]
      exact ⟨by omega, trivial⟩

theorem encNat_lt_256 (n : Nat) : ∀ b ∈ encNat n, b < 256 := by
  induction n using Nat.strong_induction_on with
  | _ n ih =>
    rw [encNat]
    by_cases h : n < 128
    · simp [h]; omega
    · have hdiv : n / 128 < n := Nat.div_lt_self (by omega) (by omega)
      simp only [h, dite_false, List.mem_cons]
      intro b hb
      rcases hb with hb | hb
      · omega
      · exact ih (n / 128) hdiv b hb

/-- Byte serialization of a string: length then the scalar value of each
character, each as a varint. -/
def encStr (s : String) : List Nat :=
  encNat s.data.length ++ (s.data.map (fun c => encNat c.toNat)).flatten

/-- Read a fixed number of varints. -/
def decNats : Nat → List Nat → Option (List Nat × List Nat)
  | 0, bs => some ([], bs)
  | n + 1, bs =>
    match decNat bs with
    | none => none
    | some (x, bs1) =>
      match decNats n bs1 with
      | none => none
      | some (xs, bs2) => some (x :: xs, bs2)

theorem decNats_enc (l : List Nat) (rest : List Nat) :
    decNats l.length ((l.map encNat).flatten ++ rest) = some (l, rest) := by
  induction l generalizing rest with
  | nil => simp [decNats]
  | cons x xs ih =>
    simp only [List.length_cons, List.map_cons, List.flatten_cons, List.append_assoc, decNats,
      decNat_encNat, ih]

/-- Decoder for encStr. -/
def decStr (bs : List Nat) : Option (String × List Nat) :=
  match decNat bs with
  | none => none
  | some (n, bs1) =>
    match decNats n bs1 with
    | none => none
    | some (cs, bs2) => some (String.mk (cs.map Char.ofNat), bs2)

theorem decStr_encStr (s : String) (rest : List Nat) :
    decStr (encStr s ++ rest) = some (s, rest) := by
  have h1 : (s.data.map fun c => encNat c.toNat) = (s.data.map Char.toNat).map encNat := by
    simp [List.map_map]
  have h2 : s.data.length = (s.data.map Char.toNat).length := by simp
  rw [encStr, h1, h2, List.append_assoc]
  simp only [decStr, decNat_encNat, decNats_enc]
  have h3 : List.map (Char.ofNat ∘ Char.toNat) s.data = s.data := by
    simp [Function.comp_def]
  rw [List.map_map, h3]

/-- Byte serialization of one output-connection record. -/
def encRec (r : OutRec) : List Nat :=
  encStr r.node ++ encNat r.input

/-- Decoder for encRec. -/
def decRec (bs : List Nat) : Option (OutRec × List Nat) :=
  match decStr bs with
  | none => none
  | some (s, bs1) =>
    match decNat bs1 with
    | none => none
    | some (i, bs2) => some (⟨s, i⟩, bs2)

theorem decRec_encRec (r : OutRec) (rest : List Nat) :
    decRec (encRec r ++ rest) = some (r, rest) := by
  simp only [encRec, List.append_assoc, decRec, decStr_encStr, decNat_encNat]

/-- Read a fixed number of records. -/
def decRecs : Nat → List Nat → Option (List OutRec × List Nat)
  | 0, bs => some ([], bs)
  | n + 1, bs =>
    match decRec bs with
    | none => none
    | some (r, bs1) =>
      match decRecs n bs1 with
      | none => none
      | some (rs, bs2) => some (r :: rs, bs2)

theorem decRecs_enc (l : List OutRec) (rest : List Nat) :
    decRecs l.length ((l.map encRec).flatten ++ rest) = some (l, rest) := by
  induction l generalizing rest with
  | nil => simp [decRecs]
  | cons r rs ih =>
    simp only [List.length_cons, List.map_cons, List.flatten_cons, List.append_assoc, decRecs,
      decRec_encRec, ih]

/-- Modelled from the spec: pickle.dumps from the Python standard library
(external to this repository), specialised to the list-of-connection-dicts
payload the handler serializes; an executable lossless byte serialization
(record count, then each record). -/
def pickleDumps (recs : List OutRec) : List Nat :=
  encNat recs.length ++ (recs.map encRec).flatten

/-- Modelled from the spec: pickle.loads, the inverse of pickleDumps;
trailing bytes are ignored as in the standard library. -/
def pickleLoads (bs : List Nat) : Option (List OutRec) :=
  match decNat bs with
  | none => none
  | some (n, bs1) =>
    match decRecs n bs1 with
    | none => none
    | some (rs, _) => some rs

theorem pickleLoads_pickleDumps (recs : List OutRec) :
    pickleLoads (pickleDumps recs) = some recs := by
  have h := decRecs_enc recs []
  simp only [List.append_nil] at h
  simp only [pickleDumps, pickleLoads, decNat_encNat, h]

theorem encStr_lt_256 (s : String) : ∀ b ∈ encStr s, b < 256 := by
  intro b hb
  simp only [encStr, List.mem_append, List.mem_flatten, List.mem_map] at hb
  rcases hb with hb | ⟨l, ⟨c, _, hc⟩, hbl⟩
  · exact encNat_lt_256 _ b hb
  · exact encNat_lt_256 c.toNat b (hc ▸ hbl)

theorem pickleDumps_lt_256 (recs : List OutRec) : ∀ b ∈ pickleDumps recs, b < 256 := by
  intro b hb
  simp only [pickleDumps, List.mem_append, List.mem_flatten, List.mem_map] at hb
  rcases hb with hb | ⟨l, ⟨r, _, hr⟩, hbl⟩
  · exact encNat_lt_256 _ b hb
  · subst hr
    simp only [encRec, List.mem_append] at hbl
    rcases hbl with h | h
    · exact encStr_lt_256 _ b h
    · exact encNat_lt_256 _ b h

/-- Number of leading list elements equal to b. -/
def countLeading (b : Nat) : List Nat → Nat
  | [] => 0
  | x :: xs => if x = b then countLeading b xs + 1 else 0

theorem take_countLeading_le (b : Nat) (l : List Nat) :
    ∀ m ≤ countLeading b l, l.take m = List.replicate m b := by
  induction l with
  | nil =>
    intro m hm
    simp only [countLeading] at hm
    simp [Nat.le_zero.mp hm]
  | cons x xs ih =>
    intro m hm
    simp only [countLeading] at hm
    by_cases hx : x = b
    · subst hx
      cases m with
      | zero => simp
      | succ k =>
        rw [if_pos rfl] at hm
        simp only [List.take_succ_cons, List.replicate_succ, List.cons.injEq, true_and]
        exact ih k (by omega)
    · rw [if_neg hx] at hm
      simp [Nat.le_zero.mp hm]

/-- Modelled from the spec: zlib.compress from the Python standard library
(external to this repository), modelled as an executable lossless run-length
byte-stream compressor (runs are capped at 255 so every emitted byte stays
below 256). -/
def rleCompress : List Nat → List Nat
  | [] => []
  | b :: bs =>
    let c := min (countLeading b bs) 254
    (c + 1) :: b :: rleCompress (bs.drop c)
termination_by l => l.length
decreasing_by simp only [List.length_drop, List.length_cons]; omega

/-- Modelled from the spec: zlib.decompress, the inverse of rleCompress;
a malformed stream yields none (the library would raise). -/
def rleDecompress : List Nat → Option (List Nat)
  | [] => some []
  | [_] => none
  | n :: b :: rest =>
    match rleDecompress rest with
    | none => none
    | some l => some (List.replicate n b ++ l)

theorem rleDecompress_rleCompress (l : List Nat) :
    rleDecompress (rleCompress l) = some l := by
  induction l using rleCompress.induct with
  | case1 => simp [rleCompress, rleDecompress]
  | case2 b bs c ih =>
    rw [rleCompress]
    simp only [rleDecompress, ih]
    have hc : c = min (countLeading b bs) 254 := rfl
    have htake : bs.take c = List.replicate c b :=
      take_countLeading_le b bs c (by omega)
    rw [List.replicate_succ, List.cons_append, ← htake, List.take_append_drop]

theorem rleCompress_lt_256 (l : List Nat) :
    (∀ x ∈ l, x < 256) → ∀ y ∈ rleCompress l, y < 256 := by
  induction l using rleCompress.induct with
  | case1 => intro _ y hy; simp [rleCompress] at hy
  | case2 b bs c ih =>
    intro hl y hy
    rw [rleCompress] at hy
    simp only [List.mem_cons] at hy
    rcases hy with hy | hy | hy
    · have : c = min (countLeading b bs) 254 := rfl
      omega
    · exact hy ▸ hl b (by simp)
    · exact ih (fun x hx => hl x (List.mem_cons_of_mem b (List.mem_of_mem_drop hx))) y hy

/-- Character for a 6-bit value in the standard base64 alphabet
(A-Z, a-z, 0-9, +, /).  Modelled from the spec of base64.b64encode
(external to this repository). -/
def b64char (n : Nat) : Char :=
  if n < 26 then Char.ofNat (65 + n)
  else if n < 52 then Char.ofNat (97 + (n - 26))
  else if n < 62 then Char.ofNat (48 + (n - 52))
  else if n = 62 then '+' else '/'

/-- Inverse of b64char on the base64 alphabet. -/
def b64index (c : Char) : Nat :=
  let n := c.toNat
  if 65 ≤ n ∧ n ≤ 90 then n - 65
  else if 97 ≤ n ∧ n ≤ 122 then n - 97 + 26
  else if 48 ≤ n ∧ n ≤ 57 then n - 48 + 52
  else if n = 43 then 62 else 63

theorem b64index_b64char : ∀ n < 64, b64index (b64char n) = n := by decide

theorem b64char_ne_colon : ∀ n < 64, b64char n ≠ ':' := by decide

theorem b64char_ne_pad : ∀ n < 64, b64char n ≠ '=' := by decide

/-- Modelled from the spec: base64.b64encode from the Python standard
library (external to this repository): bytes are chunked into 3-byte
groups, each group mapping to four alphabet characters, the final partial
group padded with "=". -/
def b64encodeL : List Nat → List Char
  | [] => []
  | [a] => [b64char (a / 4), b64char (a % 4 * 16), '=', '=']
  | [a, b] => [b64char (a / 4), b64char (a % 4 * 16 + b / 16), b64char (b % 16 * 4), '=']
  | a :: b :: c :: rest =>
    b64char (a / 4) :: b64char (a % 4 * 16 + b / 16) ::
      b64char (b % 16 * 4 + c / 64) :: b64char (c % 64) :: b64encodeL rest

/-- Modelled from the spec: base64.b64decode, the inverse of b64encodeL. -/
def b64decodeL : List Char → List Nat
  | c1 :: c2 :: c3 :: c4 :: rest =>
    if c3 = '=' ∧ c4 = '=' ∧ rest = [] then
      [b64index c1 * 4 + b64index c2 / 16]
    else if c4 = '=' ∧ rest = [] then
      [b64index c1 * 4 + b64index c2 / 16,
       b64index c2 % 16 * 16 + b64index c3 / 4]
    else
      (b64index c1 * 4 + b64index c2 / 16) ::
        (b64index c2 % 16 * 16 + b64index c3 / 4) ::
        (b64index c3 % 4 * 64 + b64index c4) :: b64decodeL rest
  | _ => []

theorem b64decodeL_b64encodeL (l : List Nat) :
    (∀ x ∈ l, x < 256) → b64decodeL (b64encodeL l) = l := by
  induction l using b64encodeL.induct with
  | case1 => intro _; rfl
  | case2 a =>
    intro hl
    have ha : a < 256 := hl a (by simp)
    rw [b64encodeL, b64decodeL, if_pos ⟨rfl, rfl, rfl⟩]
    rw [b64index_b64char _ (by omega), b64index_b64char _ (by omega)]
    have e1 : a % 4 * 16 / 16 = a % 4 := by omega
    simp only [e1, List.cons.injEq, and_true]
    omega
  | case3 a b =>
    intro hl
    have ha : a < 256 := hl a (by simp)
    have hb : b < 256 := hl b (by simp)
    have h3 : b64char (b % 16 * 4) ≠ '=' := b64char_ne_pad _ (by omega)
    rw [b64encodeL, b64decodeL, if_neg (fun h => h3 h.1), if_pos ⟨rfl, rfl⟩]
    rw [b64index_b64char _ (by omega), b64index_b64char _ (by omega),
      b64index_b64char _ (by omega)]
    have e1 : (a % 4 * 16 + b / 16) / 16 = a % 4 := by omega
    have e2 : (a % 4 * 16 + b / 16) % 16 = b / 16 := by omega
    have e3 : b % 16 * 4 / 4 = b % 16 := by omega
    simp only [e1, e2, e3, List.cons.injEq, and_true]
    omega
  | case4 a b c rest ih =>
    intro hl
    have ha : a < 256 := hl a (by simp)
    have hb : b < 256 := hl b (by simp)
    have hc : c < 256 := hl c (by simp)
    have h3 : b64char (b % 16 * 4 + c / 64) ≠ '=' := b64char_ne_pad _ (by omega)
    have h4 : b64char (c % 64) ≠ '=' := b64char_ne_pad _ (by omega)
    rw [b64encodeL, b64decodeL, if_neg (fun h => h3 h.1), if_neg (fun h => h4 h.1)]
    rw [b64index_b64char _ (by omega), b64index_b64char _ (by omega),
      b64index_b64char _ (by omega), b64index_b64char _ (by omega)]
    have e1 : (a % 4 * 16 + b / 16) / 16 = a % 4 := by omega
    have e2 : (a % 4 * 16 + b / 16) % 16 = b / 16 := by omega
    have e3 : (b % 16 * 4 + c / 64) / 4 = b % 16 := by omega
    have e4 : (b % 16 * 4 + c / 64) % 4 = c / 64 := by omega
    have hrest := ih (fun x hx => hl x (by simp [hx]))
    simp only [e1, e2, e3, e4, hrest, List.cons.injEq, and_true]
    refine ⟨by omega, by omega, by omega⟩

theorem b64encodeL_ne_colon (l : List Nat) :
    (∀ x ∈ l, x < 256) → ∀ ch ∈ b64encodeL l, ch ≠ ':' := by
  induction l using b64encodeL.induct with
  | case1 => intro _ ch hch; simp [b64encodeL] at hch
  | case2 a =>
    intro hl ch hch
    have ha : a < 256 := hl a (by simp)
    rw [b64encodeL] at hch
    simp only [List.mem_cons, List.not_mem_nil, or_false] at hch
    rcases hch with h | h | h | h <;> subst h
    · exact b64char_ne_colon _ (by omega)
    · exact b64char_ne_colon _ (by omega)
    · decide
    · decide
  | case3 a b =>
    intro hl ch hch
    have ha : a < 256 := hl a (by simp)
    have hb : b < 256 := hl b (by simp)
    rw [b64encodeL] at hch
    simp only [List.mem_cons, List.not_mem_nil, or_false] at hch
    rcases hch with h | h | h | h <;> subst h
    · exact b64char_ne_colon _ (by omega)
    · exact b64char_ne_colon _ (by omega)
    · exact b64char_ne_colon _ (by omega)
    · decide
  | case4 a b c rest ih =>
    intro hl ch hch
    have ha : a < 256 := hl a (by simp)
    have hb : b < 256 := hl b (by simp)
    have hc : c < 256 := hl c (by simp)
    rw [b64encodeL] at hch
    simp only [List.mem_cons] at hch
    rcases hch with h | h | h | h | h
    · exact h ▸ b64char_ne_colon _ (by omega)
    · exact h ▸ b64char_ne_colon _ (by omega)
    · exact h ▸ b64char_ne_colon _ (by omega)
    · exact h ▸ b64char_ne_colon _ (by omega)
    · exact ih (fun x hx => hl x (by simp [hx])) ch h

/-- An encode/decode scheme for output-connection lists
(handler.py, TK_OUTPUT_CONNECTION_CODECS entries). -/
structure ConnectionCodec where
  encode : List OutRec → String
  decode : String → Except PyErr (List OutRec)

/-- Encoder of the sgtk-01 codec:
base64.b64encode(zlib.compress(pickle.dumps(data))). -/
def sgtk01Encode (data : List OutRec) : String :=
  String.mk (b64encodeL (rleCompress (pickleDumps data)))

/-- Decoder of the sgtk-01 codec:
pickle.loads(zlib.decompress(base64.b64decode(data_str))); a malformed
payload raises (valueError stands for the library exceptions). -/
def sgtk01Decode (s : String) : Except PyErr (List OutRec) :=
  match rleDecompress (b64decodeL s.data) with
  | none => .error .valueError
  | some bs =>
    match pickleLoads bs with
    | none => .error .valueError
    | some recs => .ok recs

/-- The encode/decode scheme currently being used (handler.py line 57). -/
def TK_OUTPUT_CONNECTION_CODEC : String := "sgtk-01"

/-- Encode/decode schemes keyed by codec name (handler.py lines 60-67). -/
def TK_OUTPUT_CONNECTION_CODECS : List (String × ConnectionCodec) :=
  [(TK_OUTPUT_CONNECTION_CODEC, ⟨sgtk01Encode, sgtk01Decode⟩)]

theorem sgtk01Decode_sgtk01Encode (recs : List OutRec) :
    sgtk01Decode (sgtk01Encode recs) = .ok recs := by
  have h1 : (sgtk01Encode recs).data = b64encodeL (rleCompress (pickleDumps recs)) := rfl
  rw [sgtk01Decode, h1,
    b64decodeL_b64encodeL _ (rleCompress_lt_256 _ (pickleDumps_lt_256 recs))]
  simp only [rleDecompress_rleCompress, pickleLoads_pickleDumps]

theorem sgtk01Encode_ne_colon (recs : List OutRec) :
    ∀ ch ∈ (sgtk01Encode recs).data, ch ≠ ':' :=
  b64encodeL_ne_colon _ (rleCompress_lt_256 _ (pickleDumps_lt_256 recs))

/-! ### The node model

A shallow embedding of the parts of the Houdini node API the handler
touches.  A parameter carries its template flags (folder / string), its
menu entries, its keyframes and its current value; a node carries its
parameters, user data, cached user data (the two keys the handler uses,
typed), colour, position and connections. -/

/-- A Python parameter value: Houdini parms evaluate either to a number
or to a string.  Integer-valued parms cover the menu/toggle/int parms the
handler reads with eval and evalAsInt. -/
inductive PVal
  | ival (n : Int)
  | sval (s : String)
deriving DecidableEq, Repr

/-- A keyframe/expression entry on a parameter (hou.Keyframe): the frame,
the value and the attached expression string.  Copied wholesale by
setKeyframe. -/
structure Keyframe where
  frame : Int
  value : Int
  expr : String
deriving DecidableEq, Repr

/-- A node parameter: name, template flags (from its parmTemplate), menu
items/labels, keyframes, and current value.  For a string parm the value
holds the raw (unexpanded) string. -/
structure Parm where
  name : String
  isFolder : Bool
  isString : Bool
  menuItems : List String
  menuLabels : List String
  keyframes : List Keyframe
  val : PVal
deriving DecidableEq, Repr

/-- Houdini parm.set: setting a string on a string parm or a number on a
numeric parm succeeds; a mismatched value type raises TypeError (this is
exactly the failure the legacy lpre/lpost fallback in copy_parm_values
catches). -/
def Parm.pset (p : Parm) (v : PVal) : Except PyErr Parm :=
  match v with
  | .sval s => if p.isString then .ok { p with val := .sval s } else .error .typeError
  | .ival n => if p.isString then .error .typeError else .ok { p with val := .ival n }

/-- Houdini parm.unexpandedString: the raw string of a string parm. -/
def Parm.unexpandedString (p : Parm) : String :=
  match p.val with
  | .sval s => s
  | .ival n => toString n

/-- Insert-or-replace keyed by key, modelling both hou.Parm.setKeyframe
(keyed by frame) and hou.Node.setInput (keyed by input index): an entry
with the same key is replaced, otherwise the new entry is appended. -/
def upsertBy {α κ : Type} [DecidableEq κ] (key : α → κ) (xs : List α) (x : α) : List α :=
  if ∃ y ∈ xs, key y = key x then
    xs.map (fun y => if key y = key x then x else y)
  else xs ++ [x]

theorem foldl_upsertBy_append {α κ : Type} [DecidableEq κ] (key : α → κ)
    (ks : List α) (acc : List α)
    (hnd : (ks.map key).Nodup)
    (hdisj : ∀ x ∈ acc, ∀ y ∈ ks, key x ≠ key y) :
    List.foldl (upsertBy key) acc ks = acc ++ ks := by
  induction ks generalizing acc with
  | nil => simp
  | cons k ks ih =>
    simp only [List.map_cons, List.nodup_cons] at hnd
    simp only [List.foldl_cons]
    have hne : ¬ ∃ y ∈ acc, key y = key k :=
      fun ⟨y, hy, hk⟩ => hdisj y hy k (List.mem_cons_self k ks) hk
    have hd2 : ∀ x ∈ acc ++ [k], ∀ y ∈ ks, key x ≠ key y := by
      intro x hx y hy
      rcases List.mem_append.mp hx with hx | hx
      · exact hdisj x hx y (List.mem_cons_of_mem k hy)
      · simp only [List.mem_singleton] at hx
        subst hx
        exact fun hk => hnd.1 (hk ▸ List.mem_map_of_mem key hy)
    rw [upsertBy, if_neg hne, ih (acc ++ [k]) hnd.2 hd2]
    simp

/-- Node colour (hou.Color), an RGB triple; the handler only constructs
and copies colours, so exact rational components suffice. -/
structure Color where
  r : ℚ
  g : ℚ
  b : ℚ
deriving DecidableEq, Repr

/-- An output profile record from the app settings (handler.py __init__):
name, parameter overrides, colour and the two template names. -/
structure OutputProfile where
  name : String
  settings : List (String × PVal)
  color : Option Color
  output_cache_template : String
  output_backup_template : String
deriving DecidableEq, Repr

/-- The fields dict built by _compute_output_path (handler.py lines
738-746); the cached copy compared on each call has exactly these keys. -/
structure CacheFields where
  name : Option String
  node : String
  version : Int
  ext : String
  SEQ : String
  output_profile : OutputProfile
  hipfile : String
deriving DecidableEq, Repr

/-- The fields dict built by _compute_backup_output_path (handler.py
lines 705-710). -/
structure BackupFields where
  name : Option String
  node : String
  version : Int
  ext : String
deriving DecidableEq, Repr

/-- The fields dict built by auto_version for the abstract-path scan
(handler.py lines 595-600). -/
structure AvFields where
  name : Option String
  node : String
  SEQ : String
  ext : String
deriving DecidableEq, Repr

/-- An input connection of a node: input index on this node and the path
of the connected upstream node. -/
structure InputConnection where
  inputIndex : Nat
  inputNode : String
deriving DecidableEq, Repr

/-- An output connection of a node: path of the downstream node and the
input index used on that downstream node. -/
structure OutputConnection where
  outputNode : String
  inputIndex : Nat
deriving DecidableEq, Repr

/-- Side effects on the rest of the node graph performed during
conversion: rewiring an external node's input, and destroying a node. -/
inductive GraphAction
  | setExternalInput (nodePath : String) (inputIndex : Nat)
  | destroyNode (name : String)
deriving DecidableEq, Repr

/-- A Houdini node as seen by the handler: parameters, user data, the two
cached-user-data slots used by _compute_output_path, colour, position and
connections. -/
structure Node where
  name : String
  path : String
  parms : List Parm
  userData : List (String × String)
  cacheFields : Option CacheFields
  pathCache : Option String
  color : Color
  position : ℚ × ℚ
  inputConnections : List InputConnection
  outputConnections : List OutputConnection
  numInputConnectors : Nat
deriving DecidableEq, Repr

/-- Default (template-level) description of a parameter of a node type;
a freshly created node gets these parameters with no keyframes. -/
structure ParmDefault where
  name : String
  isFolder : Bool
  isString : Bool
  menuItems : List String
  menuLabels : List String
  defVal : PVal
deriving DecidableEq, Repr

/-- A node type: its default parameters and its number of input
connectors. -/
structure NodeType where
  parmDefaults : List ParmDefault
  numInputConnectors : Nat
deriving DecidableEq, Repr

/-- Parameter of a freshly created node built from its template default:
default value and no keyframes. -/
def freshParmOf (d : ParmDefault) : Parm :=
  ⟨d.name, d.isFolder, d.isString, d.menuItems, d.menuLabels, [], d.defVal⟩

/-- Node creation (hou.Node.createNode): a fresh node of the given type
with default parameter values, no keyframes, no user data and no
connections. -/
def freshNode (t : NodeType) : Node where
  name := "newnode"
  path := "/newnode"
  parms := t.parmDefaults.map freshParmOf
  userData := []
  cacheFields := none
  pathCache := none
  color := ⟨0, 0, 0⟩
  position := (0, 0)
  inputConnections := []
  outputConnections := []
  numInputConnectors := t.numInputConnectors

/-- First parameter with the given name (hou.Node.parm: None if absent). -/
def findParmIn : List Parm → String → Option Parm
  | [], _ => none
  | p :: ps, nm => if p.name = nm then some p else findParmIn ps nm

/-- hou.Node.parm. -/
def Node.parm (node : Node) (nm : String) : Option Parm :=
  findParmIn node.parms nm

/-- Replace the parameter(s) with the given name by the given parameter. -/
def Node.replaceParm (node : Node) (nm : String) (p' : Parm) : Node :=
  { node with parms := node.parms.map fun q => if q.name = nm then p' else q }

/-- hou.Parm.set through the node: sets the value of the named parameter;
looking up a missing parm and calling set on the resulting None raises
AttributeError. -/
def Node.setParm (node : Node) (nm : String) (v : PVal) : Except PyErr Node :=
  match node.parm nm with
  | none => .error .attributeError
  | some p => (p.pset v).map (node.replaceParm nm)

/-- hou.Parm.setKeyframe for every keyframe of a source parm, applied to
the named parameter of the node. -/
def Node.setParmKeyframes (node : Node) (nm : String) (ks : List Keyframe) : Node :=
  { node with parms := node.parms.map fun q =>
      if q.name = nm then
        { q with keyframes := List.foldl (upsertBy Keyframe.frame) q.keyframes ks }
      else q }

/-- hou.Node.setUserData. -/
def Node.setUserData (node : Node) (k v : String) : Node :=
  { node with userData := (node.userData.filter fun kv => kv.1 ≠ k) ++ [(k, v)] }

/-- Transfer of one source parm onto the matching target parm: the loop
body of copy_parm_values (handler.py lines 860-898).  Keyframes are
copied when present; a string parm copies its raw unexpanded string;
otherwise the evaluated value is set, falling back on TypeError to the
legacy integer-to-keyword map for parm names starting lpre/lpost and
re-raising for all other names. -/
def transferParm (sp tp : Parm) : Except PyErr Parm :=
  if sp.keyframes ≠ [] then
    .ok { tp with keyframes := List.foldl (upsertBy Keyframe.frame) tp.keyframes sp.keyframes }
  else if sp.isString then
    tp.pset (.sval sp.unexpandedString)
  else
    match tp.pset sp.val with
    | .ok r => .ok r
    | .error e =>
      if e = .typeError then
        if sp.name.startsWith "lpre" || sp.name.startsWith "lpost" then
          match sp.val with
          | .sval _ => .error .typeError
          | .ival n =>
            match pyListGet ["hscript", "python"] n with
            | .error e2 => .error e2
            | .ok s => tp.pset (.sval s)
        else .error e
      else .error e

/-- One iteration of the copy_parm_values loop over a source parm: folder
parms are skipped, missing target parms are skipped, otherwise the value
is transferred onto the target parm. -/
def copyParmValue (target : Node) (sp : Parm) : Except PyErr Node :=
  if sp.isFolder then .ok target
  else
    match target.parm sp.name with
    | none => .ok target
    | some tp => (transferParm sp tp).map (target.replaceParm sp.name)

/-- copy_parm_values (handler.py lines 852-898): copy parameter values of
the source node to those of the target node if a parameter with the same
name exists, skipping the excluded names. -/
def copy_parm_values (source target : Node) (excludes : List String) : Except PyErr Node :=
  List.foldlM copyParmValue target (source.parms.filter fun p => p.name ∉ excludes)

/-- copy_inputs (handler.py lines 836-848): raises if the source has more
input connections than the target has input connectors, otherwise sets
every connection at the same input index on the target. -/
def copy_inputs (source target : Node) : Except PyErr Node :=
  if source.inputConnections.length > target.numInputConnectors then
    .error .invalidInput
  else
    let conns := List.foldl (upsertBy InputConnection.inputIndex)
      target.inputConnections source.inputConnections
    .ok { target with inputConnections := conns }

/-- move_outputs (handler.py lines 910-913): every downstream node of the
source is re-wired (at its same input index) to the new node; expressed
as the list of graph actions performed. -/
def move_outputs_actions (source : Node) : List GraphAction :=
  source.outputConnections.map fun c => .setExternalInput c.outputNode c.inputIndex

/-- save_outputs_to_user_data (handler.py lines 917-939): serialize the
source node's output connections with the current codec and store the
codec-name-prefixed payload in the target's user data (nothing is stored
when there are no output connections). -/
def save_outputs_to_user_data (source target : Node) : Except PyErr Node :=
  if source.outputConnections = [] then .ok target
  else
    let outputs := source.outputConnections.map fun c => OutRec.mk c.outputNode c.inputIndex
    match alistLookup TK_OUTPUT_CONNECTION_CODECS TK_OUTPUT_CONNECTION_CODEC with
    | none => .error .keyError
    | some codec =>
      let dataStr := TK_OUTPUT_CONNECTION_CODEC ++ ":" ++ codec.encode outputs
      .ok (target.setUserData "tk_output_connections" dataStr)

/-- restore_outputs_from_user_data (handler.py lines 942-967): read the
stored payload, split the codec name at the first ":", decode with the
matching codec and re-wire each recorded downstream node; looking up a
vanished node path yields None and the setInput call on it raises.
Expressed as the list of graph actions performed. -/
def restore_outputs_from_user_data (source : Node) (nodeExistsF : String → Bool) :
    Except PyErr (List GraphAction) :=
  match alistLookup source.userData "tk_output_connections" with
  | none => .ok []
  | some dataStr =>
    if dataStr = "" then .ok []
    else
      let sepIndex := pyFindChar dataStr ':'
      let codecName := pySliceTo dataStr sepIndex
      let payload := pySliceFrom dataStr (sepIndex + 1)
      match alistLookup TK_OUTPUT_CONNECTION_CODECS codecName with
      | none => .error .keyError
      | some codec =>
        match codec.decode payload with
        | .error e => .error e
        | .ok outputs =>
          if outputs = [] then .ok []
          else outputs.mapM fun r =>
            if nodeExistsF r.node then .ok (GraphAction.setExternalInput r.node r.input)
            else .error .attributeError

/-- get_output_menu_label (handler.py lines 901-907): the menu label when
the selected item is the sgtk item, the item itself otherwise. -/
def getOutputMenuLabel (p : Parm) : Except PyErr String :=
  match p.val with
  | .sval _ => .error .typeError
  | .ival i =>
    match pyListGet p.menuItems i with
    | .error e => .error e
    | .ok item =>
      if item = "sgtk" then pyListGet p.menuLabels i else .ok item

/-- Result of converting one Toolkit Geometry node to a regular geometry
node: the new node and the graph actions performed on other nodes. -/
structure ForwardResult where
  geo : Node
  actions : List GraphAction
deriving DecidableEq, Repr

/-- Loop body of convert_to_regular_geometry_nodes (handler.py lines
206-262) for a single Toolkit Geometry node: create the counterpart
geometry node, set the output filename from the menu label, copy the
remaining parameters, store the profile name in user data, copy the
inputs, save or move the outputs (isSop selects the surface-operator
branch, which serializes outputs to user data), copy the colour, destroy
the original and take over its name and position. -/
def convert_to_regular_geometry_node (geoType : NodeType) (isSop : Bool) (tk : Node) :
    Except PyErr ForwardResult :=
  match tk.parm "sopoutput" with
  | none => .error .attributeError
  | some spOut =>
    match getOutputMenuLabel spOut with
    | .error e => .error e
    | .ok filename =>
      match (freshNode geoType).setParm "sopoutput" (.sval filename) with
      | .error e => .error e
      | .ok geo1 =>
        match copy_parm_values tk geo1 ["sopoutput"] with
        | .error e => .error e
        | .ok geo2 =>
          match tk.parm "output_profile" with
          | none => .error .attributeError
          | some profParm =>
            match profParm.val with
            | .sval _ => .error .typeError
            | .ival i =>
              match pyListGet profParm.menuLabels i with
              | .error e => .error e
              | .ok profName =>
                let geo3 := geo2.setUserData "tk_output_profile_name" profName
                match copy_inputs tk geo3 with
                | .error e => .error e
                | .ok geo4 =>
                  match (if isSop then save_outputs_to_user_data tk geo4
                         else .ok geo4) with
                  | .error e => .error e
                  | .ok geo5 =>
                    let acts := if isSop then [] else move_outputs_actions tk
                    let geo6 := { geo5 with color := tk.color }
                    .ok ⟨{ geo6 with name := tk.name, position := tk.position },
                      acts ++ [.destroyNode tk.name]⟩

/-- Warning issued when a geometry node carries no stored output profile
name (handler.py lines 120-126). -/
def noProfileWarning (nm : String) : String :=
  "Geometry node " ++ nm ++ " does not have an output profile name. " ++
    "Cannot convert to Tk Geometry node. Continuing."

/-- First index of a string in a list, modelling Python list.index (which
raises ValueError when absent; the caller catches that case). -/
def pyListIndex (l : List String) (x : String) : Option Nat :=
  match l with
  | [] => none
  | y :: ys => if y = x then some 0 else (pyListIndex ys x).map (· + 1)

/-- The try/except ValueError block of convert_back_to_tk_geometry_nodes
(handler.py lines 133-141): select the stored profile name in the new
node's profile menu; when the name is not among the labels, log a warning
and leave the menu unchanged. -/
def setProfileByLabel (tk0 : Node) (pp : Parm) (pname : String) :
    Except PyErr (Node × List String) :=
  match pyListIndex pp.menuLabels pname with
  | none => .ok (tk0, ["No output profile found named: " ++ pname])
  | some i => (tk0.setParm "output_profile" (.ival i)).map (fun n => (n, []))

/-- Result of converting one geometry node back to a Toolkit Geometry
node: the new node when the conversion happened (the loop continues
without converting when no profile name is stored), the warnings logged,
and the graph actions performed. -/
structure BackResult where
  converted : Option Node
  warnings : List String
  actions : List GraphAction
deriving DecidableEq, Repr

/-- Loop body of convert_back_to_tk_geometry_nodes (handler.py lines
111-174) for a single geometry node: skip the node (with a warning) when
no output profile name is stored in its user data; otherwise create a
fresh Toolkit Geometry node, select the stored profile name in its menu
(warning only when the label is unknown), copy the parameters except the
output path, copy the inputs, restore or move the outputs, copy the
colour, destroy the original and take over its name and position. -/
def convert_back_to_tk_geometry_node (tkType : NodeType) (isSop : Bool)
    (nodeExistsF : String → Bool) (geo : Node) : Except PyErr BackResult :=
  match alistLookup geo.userData "tk_output_profile_name" with
  | none => .ok ⟨none, [noProfileWarning geo.name], []⟩
  | some pname =>
    if pname = "" then .ok ⟨none, [noProfileWarning geo.name], []⟩
    else
      let tk0 := freshNode tkType
      match tk0.parm "output_profile" with
      | none => .error .attributeError
      | some pp =>
        match setProfileByLabel tk0 pp pname with
        | .error e => .error e
        | .ok (tk1, ws) =>
          match copy_parm_values geo tk1 ["sopoutput"] with
          | .error e => .error e
          | .ok tk2 =>
            match copy_inputs geo tk2 with
            | .error e => .error e
            | .ok tk3 =>
              match (if isSop then restore_outputs_from_user_data geo nodeExistsF
                     else .ok (move_outputs_actions geo)) with
              | .error e => .error e
              | .ok acts =>
                let tk4 := { tk3 with color := geo.color }
                .ok ⟨some { tk4 with name := geo.name, position := geo.position },
                  ws, acts ++ [.destroyNode geo.name]⟩

/-! ### Lemmas about the parameter-copy machinery -/

theorem pset_shape {p : Parm} {v : PVal} {r : Parm} (h : p.pset v = .ok r) :
    ∃ v', r = { p with val := v' } := by
  cases v with
  | sval s =>
    simp only [Parm.pset] at h
    split at h
    · exact ⟨.sval s, (Except.ok.injEq _ _).mp h |>.symm⟩
    · exact absurd h (by simp)
  | ival n =>
    simp only [Parm.pset] at h
    split at h
    · exact absurd h (by simp)
    · exact ⟨.ival n, (Except.ok.injEq _ _).mp h |>.symm⟩

theorem pset_name {p : Parm} {v : PVal} {r : Parm} (h : p.pset v = .ok r) :
    r.name = p.name := by
  obtain ⟨v', rfl⟩ := pset_shape h
  rfl

theorem pset_sval_ok {p : Parm} (s : String) (h : p.isString = true) :
    p.pset (.sval s) = .ok { p with val := .sval s } := by
  simp [Parm.pset, h]

theorem pset_ival_ok {p : Parm} (n : Int) (h : p.isString = false) :
    p.pset (.ival n) = .ok { p with val := .ival n } := by
  simp [Parm.pset, h]

theorem transferParm_shape {sp tp r : Parm} (h : transferParm sp tp = .ok r) :
    (sp.keyframes ≠ [] ∧
      r = { tp with keyframes := List.foldl (upsertBy Keyframe.frame) tp.keyframes sp.keyframes })
    ∨ (sp.keyframes = [] ∧ ∃ v', r = { tp with val := v' }) := by
  by_cases hk : sp.keyframes = []
  · rw [transferParm, if_neg (by simp [hk])] at h
    refine Or.inr ⟨hk, ?_⟩
    by_cases hs : sp.isString = true
    · rw [if_pos hs] at h
      exact pset_shape h
    · rw [if_neg hs] at h
      cases hps : tp.pset sp.val with
      | ok r' =>
        simp only [hps, Except.ok.injEq] at h
        exact h ▸ pset_shape hps
      | error e =>
        simp only [hps] at h
        by_cases he : e = PyErr.typeError
        · rw [if_pos he] at h
          split at h
          · cases hv : sp.val with
            | sval s => simp [hv] at h
            | ival n =>
              simp only [hv] at h
              cases hlg : pyListGet ["hscript", "python"] n with
              | error e2 => simp [hlg] at h
              | ok s =>
                simp only [hlg] at h
                exact pset_shape h
          · exact absurd h (by simp)
        · rw [if_neg he] at h
          exact absurd h (by simp)
  · rw [transferParm, if_pos hk] at h
    exact Or.inl ⟨hk, ((Except.ok.injEq _ _).mp h).symm⟩

theorem transferParm_name {sp tp r : Parm} (h : transferParm sp tp = .ok r) :
    r.name = tp.name := by
  rcases transferParm_shape h with ⟨_, rfl⟩ | ⟨_, _, rfl⟩ <;> rfl

/-- Keyframed source parm: the transfer copies exactly the source
keyframes onto a target parm that has none yet, provided the source
frames are distinct. -/
theorem transferParm_keys {sp tp : Parm} (hk : sp.keyframes ≠ [])
    (hnd : (sp.keyframes.map Keyframe.frame).Nodup)
    (htk : tp.keyframes = []) :
    transferParm sp tp = .ok { tp with keyframes := sp.keyframes } := by
  rw [transferParm, if_pos hk, htk,
    foldl_upsertBy_append Keyframe.frame sp.keyframes [] hnd (by simp)]
  simp

theorem transferParm_str {sp tp : Parm} (hk : sp.keyframes = [])
    (hs : sp.isString = true) (hts : tp.isString = true) :
    transferParm sp tp = .ok { tp with val := .sval sp.unexpandedString } := by
  rw [transferParm, if_neg (by simp [hk]), if_pos hs, pset_sval_ok _ hts]

theorem transferParm_int {sp tp : Parm} {n : Int} (hk : sp.keyframes = [])
    (hs : sp.isString = false) (hts : tp.isString = false) (hv : sp.val = .ival n) :
    transferParm sp tp = .ok { tp with val := .ival n } := by
  rw [transferParm, if_neg (by simp [hk]), if_neg (by simp [hs]), hv, pset_ival_ok _ hts]

theorem findParmIn_name {l : List Parm} {nm : String} {p : Parm}
    (h : findParmIn l nm = some p) : p.name = nm := by
  induction l with
  | nil => simp [findParmIn] at h
  | cons q qs ih =>
    rw [findParmIn] at h
    split at h
    · next hq => exact (Option.some.injEq _ _).mp h ▸ hq
    · exact ih h

theorem findParmIn_mem {l : List Parm} {nm : String} {p : Parm}
    (h : findParmIn l nm = some p) : p ∈ l := by
  induction l with
  | nil => simp [findParmIn] at h
  | cons q qs ih =>
    rw [findParmIn] at h
    split at h
    · exact (Option.some.injEq _ _).mp h ▸ List.mem_cons_self q qs
    · exact List.mem_cons_of_mem q (ih h)

theorem findParmIn_of_mem {l : List Parm} {nm : String} {p : Parm}
    (hnd : (l.map Parm.name).Nodup) (hp : p ∈ l) (hnm : p.name = nm) :
    findParmIn l nm = some p := by
  induction l with
  | nil => simp at hp
  | cons q qs ih =>
    simp only [List.map_cons, List.nodup_cons] at hnd
    rcases List.mem_cons.mp hp with rfl | hp
    · rw [findParmIn, if_pos hnm]
    · rw [findParmIn]
      split
      · next hq =>
        exfalso
        exact hnd.1 (hq ▸ hnm ▸ List.mem_map_of_mem Parm.name hp)
      · exact ih hnd.2 hp

theorem findParmIn_replace_ne (l : List Parm) (m nm : String) (p' : Parm)
    (hp' : p'.name = m) (h : nm ≠ m) :
    findParmIn (l.map fun q => if q.name = m then p' else q) nm = findParmIn l nm := by
  induction l with
  | nil => rfl
  | cons q qs ih =>
    by_cases hq : q.name = m
    · simp only [List.map_cons, if_pos hq, findParmIn, ih]
      rw [if_neg fun hh => h ((hp'.symm.trans hh).symm),
        if_neg fun hh => h ((hq.symm.trans hh).symm)]
    · simp only [List.map_cons, if_neg hq, findParmIn, ih]

theorem findParmIn_replace_self {l : List Parm} {m : String} {tp : Parm} (p' : Parm)
    (hp' : p'.name = m) (h : findParmIn l m = some tp) :
    findParmIn (l.map fun q => if q.name = m then p' else q) m = some p' := by
  induction l with
  | nil => simp [findParmIn] at h
  | cons q qs ih =>
    simp only [findParmIn] at h
    by_cases hq : q.name = m
    · simp [List.map_cons, if_pos hq, findParmIn, hp']
    · rw [if_neg hq] at h
      simp only [List.map_cons, if_neg hq, findParmIn]
      exact ih h

theorem replaceParm_parm_ne {T : Node} {m : String} {p' : Parm} (hp' : p'.name = m)
    {nm : String} (h : nm ≠ m) :
    (T.replaceParm m p').parm nm = T.parm nm := by
  simp only [Node.parm, Node.replaceParm]
  exact findParmIn_replace_ne T.parms m nm p' hp' h

theorem replaceParm_parm_self {T : Node} {m : String} {tp : Parm} {p' : Parm}
    (hp' : p'.name = m) (h : T.parm m = some tp) :
    (T.replaceParm m p').parm m = some p' := by
  simp only [Node.parm, Node.replaceParm]
  exact findParmIn_replace_self p' hp' h

theorem replaceParm_names {T : Node} {m : String} {p' : Parm} (hp' : p'.name = m) :
    (T.replaceParm m p').parms.map Parm.name = T.parms.map Parm.name := by
  simp only [Node.replaceParm, List.map_map]
  refine List.map_congr_left fun q _ => ?_
  by_cases hq : q.name = m
  · simp [Function.comp, hq, hp']
  · simp [Function.comp, hq]

theorem foldlM_copy_cons_ok {T T' : Node} {x : Parm} {L : List Parm}
    (h : List.foldlM copyParmValue T (x :: L) = .ok T') :
    ∃ T1, copyParmValue T x = .ok T1 ∧ List.foldlM copyParmValue T1 L = .ok T' := by
  rw [List.foldlM_cons] at h
  cases hcx : copyParmValue T x with
  | error e => rw [hcx] at h; exact absurd h (by simp [Bind.bind, Except.bind])
  | ok T1 =>
    rw [hcx] at h
    simp only [Bind.bind, Except.bind] at h
    exact ⟨T1, rfl, h⟩

theorem cpv_parm_ne {T T1 : Node} {sp : Parm} (h : copyParmValue T sp = .ok T1)
    {nm : String} (hne : nm ≠ sp.name) : T1.parm nm = T.parm nm := by
  rw [copyParmValue] at h
  by_cases hf : sp.isFolder = true
  · rw [if_pos hf] at h
    obtain rfl := (Except.ok.injEq _ _).mp h
    rfl
  · rw [if_neg hf] at h
    cases hfp : T.parm sp.name with
    | none =>
      simp only [hfp] at h
      obtain rfl := (Except.ok.injEq _ _).mp h
      rfl
    | some tp =>
      simp only [hfp] at h
      cases ht : transferParm sp tp with
      | error e => rw [ht] at h; exact absurd h (by simp [Except.map])
      | ok p' =>
        rw [ht] at h
        simp only [Except.map, Except.ok.injEq] at h
        subst h
        exact replaceParm_parm_ne ((transferParm_name ht).trans (findParmIn_name hfp)) hne

theorem cpv_names {T T1 : Node} {sp : Parm} (h : copyParmValue T sp = .ok T1) :
    T1.parms.map Parm.name = T.parms.map Parm.name := by
  rw [copyParmValue] at h
  by_cases hf : sp.isFolder = true
  · rw [if_pos hf] at h
    obtain rfl := (Except.ok.injEq _ _).mp h
    rfl
  · rw [if_neg hf] at h
    cases hfp : T.parm sp.name with
    | none =>
      simp only [hfp] at h
      obtain rfl := (Except.ok.injEq _ _).mp h
      rfl
    | some tp =>
      simp only [hfp] at h
      cases ht : transferParm sp tp with
      | error e => rw [ht] at h; exact absurd h (by simp [Except.map])
      | ok p' =>
        rw [ht] at h
        simp only [Except.map, Except.ok.injEq] at h
        subst h
        exact replaceParm_names ((transferParm_name ht).trans (findParmIn_name hfp))

theorem foldlM_copy_parm_ne {L : List Parm} {T T' : Node} {nm : String}
    (h : List.foldlM copyParmValue T L = .ok T')
    (hn : ∀ sp ∈ L, sp.name ≠ nm) : T'.parm nm = T.parm nm := by
  induction L generalizing T with
  | nil =>
    rw [List.foldlM_nil] at h
    injection h with h2
    rw [h2]
  | cons x L ih =>
    obtain ⟨T1, hx, hrest⟩ := foldlM_copy_cons_ok h
    have h1 : T1.parm nm = T.parm nm :=
      cpv_parm_ne hx fun hh => hn x (List.mem_cons_self x L) hh.symm
    rw [ih hrest fun sp hsp => hn sp (List.mem_cons_of_mem x hsp), h1]

theorem foldlM_copy_names {L : List Parm} {T T' : Node}
    (h : List.foldlM copyParmValue T L = .ok T') :
    T'.parms.map Parm.name = T.parms.map Parm.name := by
  induction L generalizing T with
  | nil =>
    rw [List.foldlM_nil] at h
    injection h with h2
    rw [h2]
  | cons x L ih =>
    obtain ⟨T1, hx, hrest⟩ := foldlM_copy_cons_ok h
    rw [ih hrest, cpv_names hx]

theorem foldlM_copy_parm_self {L : List Parm} {T T' : Node} {sp : Parm} {tp : Parm}
    (h : List.foldlM copyParmValue T L = .ok T')
    (hmem : sp ∈ L) (hnd : (L.map Parm.name).Nodup)
    (hnf : sp.isFolder = false) (htp : T.parm sp.name = some tp) :
    ∃ tp', transferParm sp tp = .ok tp' ∧ T'.parm sp.name = some tp' := by
  induction L generalizing T with
  | nil => simp at hmem
  | cons x L ih =>
    obtain ⟨T1, hx, hrest⟩ := foldlM_copy_cons_ok h
    simp only [List.map_cons, List.nodup_cons] at hnd
    rcases List.mem_cons.mp hmem with rfl | hmem'
    · rw [copyParmValue, if_neg (by simp [hnf])] at hx
      simp only [htp] at hx
      cases ht : transferParm sp tp with
      | error e => rw [ht] at hx; exact absurd hx (by simp [Except.map])
      | ok tp' =>
        rw [ht] at hx
        simp only [Except.map, Except.ok.injEq] at hx
        subst hx
        refine ⟨tp', rfl, ?_⟩
        have hname : tp'.name = sp.name :=
          (transferParm_name ht).trans (findParmIn_name htp)
        have hT1 : (T.replaceParm sp.name tp').parm sp.name = some tp' :=
          replaceParm_parm_self hname htp
        rw [foldlM_copy_parm_ne hrest fun q hq hh => hnd.1 (by
          rw [← hh]; exact List.mem_map_of_mem Parm.name hq), hT1]
    · have hxname : sp.name ≠ x.name := fun hh => hnd.1 (by
        rw [← hh]; exact List.mem_map_of_mem Parm.name hmem')
      have hT1 : T1.parm sp.name = some tp := by
        rw [cpv_parm_ne hx hxname, htp]
      exact ih hrest hmem' hnd.2 hT1

/-! ### Support lemmas for the conversion bodies -/

theorem setParm_parm_ne {T T1 : Node} {m : String} {v : PVal}
    (h : T.setParm m v = .ok T1) {nm : String} (hne : nm ≠ m) :
    T1.parm nm = T.parm nm := by
  rw [Node.setParm] at h
  cases hfp : T.parm m with
  | none => simp [hfp] at h
  | some p =>
    simp only [hfp] at h
    cases hps : p.pset v with
    | error e => rw [hps] at h; exact absurd h (by simp [Except.map])
    | ok p' =>
      rw [hps] at h
      simp only [Except.map, Except.ok.injEq] at h
      subst h
      exact replaceParm_parm_ne ((pset_name hps).trans (findParmIn_name hfp)) hne

theorem setParm_parm_self {T T1 : Node} {m : String} {v : PVal}
    (h : T.setParm m v = .ok T1) :
    ∃ p v', T.parm m = some p ∧ T1.parm m = some { p with val := v' } := by
  rw [Node.setParm] at h
  cases hfp : T.parm m with
  | none => simp [hfp] at h
  | some p =>
    simp only [hfp] at h
    cases hps : p.pset v with
    | error e => rw [hps] at h; exact absurd h (by simp [Except.map])
    | ok p' =>
      rw [hps] at h
      simp only [Except.map, Except.ok.injEq] at h
      subst h
      obtain ⟨v', rfl⟩ := pset_shape hps
      refine ⟨p, v', rfl, replaceParm_parm_self ?_ hfp⟩
      have hname : ({ p with val := v' } : Parm).name = p.name := rfl
      exact hname.trans (findParmIn_name hfp)

theorem setParm_names {T T1 : Node} {m : String} {v : PVal}
    (h : T.setParm m v = .ok T1) :
    T1.parms.map Parm.name = T.parms.map Parm.name := by
  rw [Node.setParm] at h
  cases hfp : T.parm m with
  | none => simp [hfp] at h
  | some p =>
    simp only [hfp] at h
    cases hps : p.pset v with
    | error e => rw [hps] at h; exact absurd h (by simp [Except.map])
    | ok p' =>
      rw [hps] at h
      simp only [Except.map, Except.ok.injEq] at h
      subst h
      exact replaceParm_names ((pset_name hps).trans (findParmIn_name hfp))

/-- First default parameter with the given name on a node type. -/
def findDefIn : List ParmDefault → String → Option ParmDefault
  | [], _ => none
  | d :: ds, nm => if d.name = nm then some d else findDefIn ds nm

theorem freshParmOf_name (d : ParmDefault) : (freshParmOf d).name = d.name := rfl

theorem findParmIn_map_fresh (l : List ParmDefault) (nm : String) :
    findParmIn (l.map freshParmOf) nm = (findDefIn l nm).map freshParmOf := by
  induction l with
  | nil => rfl
  | cons d ds ih =>
    simp only [List.map_cons, findParmIn, findDefIn, freshParmOf_name]
    by_cases hd : d.name = nm
    · rw [if_pos hd, if_pos hd]
      rfl
    · rw [if_neg hd, if_neg hd, ih]

theorem findDefIn_of_mem_name {l : List ParmDefault} {nm : String}
    (h : nm ∈ l.map ParmDefault.name) :
    ∃ d, findDefIn l nm = some d ∧ d.name = nm ∧ d ∈ l := by
  induction l with
  | nil => simp at h
  | cons d ds ih =>
    by_cases hd : d.name = nm
    · exact ⟨d, by rw [findDefIn, if_pos hd], hd, List.mem_cons_self d ds⟩
    · simp only [List.map_cons, List.mem_cons] at h
      rcases h with h | h
      · exact absurd h.symm hd
      · obtain ⟨e, he, hen, hem⟩ := ih h
        exact ⟨e, by rw [findDefIn, if_neg hd]; exact he, hen, List.mem_cons_of_mem d hem⟩

/-- The parm of a fresh node for a name present among the type's default
parameters. -/
theorem freshNode_parm {t : NodeType} {nm : String}
    (h : nm ∈ t.parmDefaults.map ParmDefault.name) :
    ∃ d, findDefIn t.parmDefaults nm = some d ∧ d.name = nm ∧ d ∈ t.parmDefaults ∧
      (freshNode t).parm nm = some (freshParmOf d) := by
  obtain ⟨d, hd, hdn, hdm⟩ := findDefIn_of_mem_name h
  refine ⟨d, hd, hdn, hdm, ?_⟩
  show findParmIn (t.parmDefaults.map freshParmOf) nm = _
  rw [findParmIn_map_fresh, hd]
  rfl

theorem save_outputs_parms {s t t' : Node}
    (h : save_outputs_to_user_data s t = .ok t') : t'.parms = t.parms := by
  rw [save_outputs_to_user_data] at h
  split at h
  · obtain rfl := (Except.ok.injEq _ _).mp h
    rfl
  · split at h
    · exact absurd h (by simp)
    · obtain rfl := (Except.ok.injEq _ _).mp h
      rfl

theorem copy_inputs_parms {s t t' : Node}
    (h : copy_inputs s t = .ok t') : t'.parms = t.parms := by
  rw [copy_inputs] at h
  split at h
  · exact absurd h (by simp)
  · obtain rfl := (Except.ok.injEq _ _).mp h
    rfl

theorem setProfileByLabel_parm {tk0 tk1 : Node} {pp : Parm} {pname : String}
    {ws : List String} (h : setProfileByLabel tk0 pp pname = .ok (tk1, ws)) :
    ∀ nm q, tk0.parm nm = some q →
      ∃ q', tk1.parm nm = some q' ∧ q'.isString = q.isString ∧
        q'.isFolder = q.isFolder ∧ q'.keyframes = q.keyframes := by
  intro nm q hq
  rw [setProfileByLabel] at h
  cases hli : pyListIndex pp.menuLabels pname with
  | none =>
    simp only [hli, Except.ok.injEq, Prod.mk.injEq] at h
    exact ⟨q, h.1 ▸ hq, rfl, rfl, rfl⟩
  | some i =>
    simp only [hli] at h
    cases hsp : tk0.setParm "output_profile" (.ival i) with
    | error e => rw [hsp] at h; exact absurd h (by simp [Except.map])
    | ok tkx =>
      rw [hsp] at h
      simp only [Except.map, Except.ok.injEq, Prod.mk.injEq] at h
      obtain ⟨rfl, _⟩ := h
      by_cases hnm : nm = "output_profile"
      · subst hnm
        obtain ⟨p, v', hp, hp'⟩ := setParm_parm_self hsp
        rw [hp] at hq
        obtain rfl := (Option.some.injEq _ _).mp hq
        exact ⟨{ p with val := v' }, hp', rfl, rfl, rfl⟩
      · rw [setParm_parm_ne hsp hnm] at *
        exact ⟨q, hq, rfl, rfl, rfl⟩

theorem setProfileByLabel_names {tk0 tk1 : Node} {pp : Parm} {pname : String}
    {ws : List String} (h : setProfileByLabel tk0 pp pname = .ok (tk1, ws)) :
    tk1.parms.map Parm.name = tk0.parms.map Parm.name := by
  rw [setProfileByLabel] at h
  cases hli : pyListIndex pp.menuLabels pname with
  | none =>
    simp only [hli, Except.ok.injEq, Prod.mk.injEq] at h
    rw [h.1]
  | some i =>
    simp only [hli] at h
    cases hsp : tk0.setParm "output_profile" (.ival i) with
    | error e => rw [hsp] at h; exact absurd h (by simp [Except.map])
    | ok tkx =>
      rw [hsp] at h
      simp only [Except.map, Except.ok.injEq, Prod.mk.injEq] at h
      obtain ⟨rfl, _⟩ := h
      exact setParm_names hsp

/-- A successful forward conversion contains a successful output-filename
assignment and parameter copy, and the final node keeps the copied
parameters (the later steps only touch user data, connections, colour,
name and position). -/
theorem forward_copy_of_ok {geoType : NodeType} {isSop : Bool} {tk : Node}
    {fwd : ForwardResult}
    (h : convert_to_regular_geometry_node geoType isSop tk = .ok fwd) :
    ∃ fname geo1 geo2,
      (freshNode geoType).setParm "sopoutput" (.sval fname) = .ok geo1 ∧
      copy_parm_values tk geo1 ["sopoutput"] = .ok geo2 ∧
      fwd.geo.parms = geo2.parms := by
  rw [convert_to_regular_geometry_node] at h
  cases h0 : tk.parm "sopoutput" with
  | none => simp [h0] at h
  | some spOut =>
    simp only [h0] at h
    cases h1 : getOutputMenuLabel spOut with
    | error e => simp [h1] at h
    | ok fname =>
      simp only [h1] at h
      cases h2 : (freshNode geoType).setParm "sopoutput" (.sval fname) with
      | error e => simp [h2] at h
      | ok geo1 =>
        simp only [h2] at h
        cases h3 : copy_parm_values tk geo1 ["sopoutput"] with
        | error e => simp [h3] at h
        | ok geo2 =>
          simp only [h3] at h
          refine ⟨fname, geo1, geo2, h2, h3, ?_⟩
          cases h4 : tk.parm "output_profile" with
          | none => simp [h4] at h
          | some profParm =>
            simp only [h4] at h
            cases h5 : profParm.val with
            | sval s => simp [h5] at h
            | ival i =>
              simp only [h5] at h
              cases h6 : pyListGet profParm.menuLabels i with
              | error e => simp [h6] at h
              | ok profName =>
                simp only [h6] at h
                cases h7 : copy_inputs tk (geo2.setUserData "tk_output_profile_name" profName) with
                | error e => simp [h7] at h
                | ok geo4 =>
                  simp only [h7] at h
                  cases h8 : (if isSop then save_outputs_to_user_data tk geo4
                      else Except.ok geo4) with
                  | error e => simp [h8] at h
                  | ok geo5 =>
                    simp only [h8] at h
                    obtain rfl := (Except.ok.injEq _ _).mp h
                    have h9 : geo5.parms = geo4.parms := by
                      by_cases hsop : isSop
                      · rw [if_pos hsop] at h8
                        exact save_outputs_parms h8
                      · rw [if_neg hsop] at h8
                        obtain rfl := (Except.ok.injEq _ _).mp h8
                        rfl
                    show geo5.parms = geo2.parms
                    rw [h9, copy_inputs_parms h7]
                    rfl

/-- A successful backward conversion of a node with a stored profile name
yields a converted node; the converted node keeps the parameters produced
by the profile-menu step followed by the parameter copy. -/
theorem backward_copy_of_ok {tkType : NodeType} {isSop : Bool} {exF : String → Bool}
    {geo : Node} {bwd : BackResult} {tk2 : Node}
    (h : convert_back_to_tk_geometry_node tkType isSop exF geo = .ok bwd)
    (hc : bwd.converted = some tk2) :
    ∃ pname pp tk1 ws tkc,
      alistLookup geo.userData "tk_output_profile_name" = some pname ∧
      (freshNode tkType).parm "output_profile" = some pp ∧
      setProfileByLabel (freshNode tkType) pp pname = .ok (tk1, ws) ∧
      copy_parm_values geo tk1 ["sopoutput"] = .ok tkc ∧
      tk2.parms = tkc.parms := by
  rw [convert_back_to_tk_geometry_node] at h
  cases h0 : alistLookup geo.userData "tk_output_profile_name" with
  | none =>
    simp only [h0] at h
    obtain rfl := (Except.ok.injEq _ _).mp h
    simp at hc
  | some pname =>
    simp only [h0] at h
    by_cases hpe : pname = ""
    · rw [if_pos hpe] at h
      obtain rfl := (Except.ok.injEq _ _).mp h
      simp at hc
    · rw [if_neg hpe] at h
      cases h1 : (freshNode tkType).parm "output_profile" with
      | none => simp [h1] at h
      | some pp =>
        simp only [h1] at h
        cases h2 : setProfileByLabel (freshNode tkType) pp pname with
        | error e => simp [h2] at h
        | ok pr =>
          obtain ⟨tk1, ws⟩ := pr
          simp only [h2] at h
          cases h3 : copy_parm_values geo tk1 ["sopoutput"] with
          | error e => simp [h3] at h
          | ok tkc =>
            simp only [h3] at h
            refine ⟨pname, pp, tk1, ws, tkc, rfl, rfl, h2, h3, ?_⟩
            cases h4 : copy_inputs geo tkc with
            | error e => simp [h4] at h
            | ok tk3 =>
              simp only [h4] at h
              cases h5 : (if isSop then restore_outputs_from_user_data geo exF
                  else Except.ok (move_outputs_actions geo)) with
              | error e => simp [h5] at h
              | ok acts =>
                simp only [h5] at h
                obtain rfl := (Except.ok.injEq _ _).mp h
                obtain rfl := (Option.some.injEq _ _).mp hc
                show tk3.parms = tkc.parms
                exact copy_inputs_parms h4

/-- A parm value matching its template type: string parms hold strings,
numeric parms hold numbers (every live Houdini parm satisfies this). -/
def parmValWF (p : Parm) : Bool :=
  match p.val with
  | .sval _ => p.isString
  | .ival _ => !p.isString

/-- A default parm value matching its template type. -/
def defaultValWF (d : ParmDefault) : Bool :=
  match d.defVal with
  | .sval _ => d.isString
  | .ival _ => !d.isString

theorem fresh_names (l : List ParmDefault) :
    (l.map freshParmOf).map Parm.name = l.map ParmDefault.name := by
  rw [List.map_map]
  exact List.map_congr_left fun d _ => rfl

/-- Outcome of one parameter transfer onto a fresh (keyframe-free) target
parm of the same template kind: it succeeds, keeps the target's template
data, takes over the source keyframes, and takes over the source value
when the source has no keyframes. -/
theorem transfer_outcome {sp tp : Parm}
    (hwf : parmValWF sp = true) (hknd : (sp.keyframes.map Keyframe.frame).Nodup)
    (hts : tp.isString = sp.isString) (htk : tp.keyframes = []) :
    ∃ fp, transferParm sp tp = .ok fp ∧
      fp.name = tp.name ∧ fp.isString = tp.isString ∧ fp.isFolder = tp.isFolder ∧
      fp.keyframes = sp.keyframes ∧
      (sp.keyframes = [] → fp.val = sp.val) ∧
      (sp.keyframes ≠ [] → fp.val = tp.val) := by
  by_cases hk : sp.keyframes = []
  · cases hv : sp.val with
    | sval s =>
      have hss : sp.isString = true := by
        simp only [parmValWF, hv] at hwf
        exact hwf
      refine ⟨{ tp with val := .sval sp.unexpandedString },
        transferParm_str hk hss (hts.trans hss), rfl, rfl, rfl, ?_, ?_, ?_⟩
      · show tp.keyframes = sp.keyframes
        rw [htk, hk]
      · intro _
        simp [Parm.unexpandedString, hv]
      · intro hkk
        exact absurd hk hkk
    | ival n =>
      have hss : sp.isString = false := by
        simp only [parmValWF, hv, Bool.not_eq_true'] at hwf
        exact hwf
      refine ⟨{ tp with val := .ival n },
        transferParm_int hk hss (hts.trans hss) hv, rfl, rfl, rfl, ?_, ?_, ?_⟩
      · show tp.keyframes = sp.keyframes
        rw [htk, hk]
      · intro _
        rfl
      · intro hkk
        exact absurd hk hkk
  · refine ⟨{ tp with keyframes := sp.keyframes }, ?_, rfl, rfl, rfl, rfl, ?_, ?_⟩
    · exact transferParm_keys hk hknd htk
    · intro hkk
      exact absurd hkk hk
    · intro _
      rfl

theorem freshParmOf_isString (d : ParmDefault) : (freshParmOf d).isString = d.isString := rfl

theorem freshParmOf_isFolder (d : ParmDefault) : (freshParmOf d).isFolder = d.isFolder := rfl

theorem freshParmOf_keyframes (d : ParmDefault) : (freshParmOf d).keyframes = [] := rfl

theorem freshParmOf_val (d : ParmDefault) : (freshParmOf d).val = d.defVal := rfl

/-- C1: converting a Toolkit Geometry node to a regular geometry node and
then converting back (the per-node bodies of
convert_to_regular_geometry_nodes followed by
convert_back_to_tk_geometry_nodes) leaves every parameter whose name
exists on both node types with its original keyframes (which carry the
keyed values and expressions) and, for keyframe-free parameters, its
original value — except the output-path parameter sopoutput.  The
hypotheses are the structural facts of a live session: distinct parameter
names, values matching the template kinds, and same-named parameters
having the same template kind on both node types (the legacy lpre/lpost
integer-to-keyword fallback applies exactly in the mismatched-kind cases,
which the claim excludes). -/
theorem c1_roundtrip_preserves_parms
    (geoType tkType : NodeType) (isSopF isSopB : Bool) (exF : String → Bool)
    (S : Node) (fwd : ForwardResult) (bwd : BackResult) (tk2 : Node)
    (hSnd : (S.parms.map Parm.name).Nodup)
    (hGnd : (geoType.parmDefaults.map ParmDefault.name).Nodup)
    (hSwf : ∀ p ∈ S.parms, parmValWF p = true ∧ (p.keyframes.map Keyframe.frame).Nodup)
    (hGwf : ∀ d ∈ geoType.parmDefaults, defaultValWF d = true)
    (hSG : ∀ p ∈ S.parms, p.name ≠ "sopoutput" → ∀ d ∈ geoType.parmDefaults, d.name = p.name →
      d.isString = p.isString ∧ d.isFolder = p.isFolder)
    (hGT : ∀ d ∈ geoType.parmDefaults, d.name ≠ "sopoutput" →
      ∀ e ∈ tkType.parmDefaults, e.name = d.name →
      e.isString = d.isString ∧ e.isFolder = d.isFolder)
    (h1 : convert_to_regular_geometry_node geoType isSopF S = .ok fwd)
    (h2 : convert_back_to_tk_geometry_node tkType isSopB exF fwd.geo = .ok bwd)
    (h3 : bwd.converted = some tk2) :
    ∀ sp ∈ S.parms, sp.name ≠ "sopoutput" → sp.isFolder = false →
      sp.name ∈ geoType.parmDefaults.map ParmDefault.name →
      sp.name ∈ tkType.parmDefaults.map ParmDefault.name →
      ∃ fp, tk2.parm sp.name = some fp ∧ fp.keyframes = sp.keyframes ∧
        (sp.keyframes = [] → fp.val = sp.val) := by
  intro sp hsp hnsop hnf hgmem htmem
  obtain ⟨fname, geo1, geo2, hset, hcopyF, hparmsF⟩ := forward_copy_of_ok h1
  rw [copy_parm_values] at hcopyF
  obtain ⟨gd, hgdfind, hgdname, hgdmem, hgparm⟩ := @freshNode_parm geoType _ hgmem
  have hgeo1parm : geo1.parm sp.name = some (freshParmOf gd) := by
    rw [setParm_parm_ne hset hnsop, hgparm]
  obtain ⟨hspwf, hspknd⟩ := hSwf sp hsp
  obtain ⟨hgds, hgdf⟩ := hSG sp hsp hnsop gd hgdmem hgdname
  obtain ⟨gp', htrF, hgpname, hgps, hgpf, hgpk, hgpv0, hgpv1⟩ :=
    @transfer_outcome _ (freshParmOf gd) hspwf hspknd hgds rfl
  obtain ⟨gp'', htrF', hgeo2parm⟩ := foldlM_copy_parm_self hcopyF
    (List.mem_filter.mpr ⟨hsp, by simp [hnsop]⟩)
    (hSnd.sublist ((List.filter_sublist _).map Parm.name)) hnf hgeo1parm
  have hgpeq : gp'' = gp' := by
    rw [htrF] at htrF'
    exact ((Except.ok.injEq _ _).mp htrF').symm
  rw [hgpeq] at hgeo2parm
  obtain ⟨pname, pp, tk1, ws, tkc, hud, hppfind, hspl, hcopyB, hparmsB⟩ :=
    backward_copy_of_ok h2 h3
  rw [copy_parm_values] at hcopyB
  obtain ⟨td, htdfind, htdname, htdmem, htparm⟩ := @freshNode_parm tkType _ htmem
  obtain ⟨tq, htk1parm, htqs, htqf, htqk⟩ :=
    setProfileByLabel_parm hspl sp.name (freshParmOf td) htparm
  have hgpn : gp'.name = sp.name := by
    rw [hgpname, freshParmOf_name, hgdname]
  have hgpwf : parmValWF gp' = true := by
    by_cases hk : sp.keyframes = []
    · have hv := hgpv0 hk
      cases hsv : sp.val with
      | sval s =>
        rw [hsv] at hv
        simp only [parmValWF, hv]
        rw [hgps, freshParmOf_isString, hgds]
        simp only [parmValWF, hsv] at hspwf
        exact hspwf
      | ival n =>
        rw [hsv] at hv
        simp only [parmValWF, hv]
        rw [hgps, freshParmOf_isString, hgds]
        simp only [parmValWF, hsv] at hspwf
        simp [hspwf]
    · have hv := hgpv1 hk
      have hgdwf := hGwf gd hgdmem
      rw [freshParmOf_val] at hv
      cases hdv : gd.defVal with
      | sval s =>
        rw [hdv] at hv
        simp only [parmValWF, hv]
        rw [hgps, freshParmOf_isString]
        simp only [defaultValWF, hdv] at hgdwf
        exact hgdwf
      | ival n =>
        rw [hdv] at hv
        simp only [parmValWF, hv]
        rw [hgps, freshParmOf_isString]
        simp only [defaultValWF, hdv] at hgdwf
        simp [hgdwf]
  have hgpknd : (gp'.keyframes.map Keyframe.frame).Nodup := by
    rw [hgpk]
    exact hspknd
  have htqs' : tq.isString = gp'.isString := by
    rw [htqs, freshParmOf_isString,
      (hGT gd hgdmem (by rw [hgdname]; exact hnsop) td htdmem
        (htdname.trans hgdname.symm)).1, hgps, freshParmOf_isString]
  have htqk' : tq.keyframes = [] := by
    rw [htqk, freshParmOf_keyframes]
  obtain ⟨fp, htrB, hfpname, hfps, hfpf, hfpk, hfpv0, hfpv1⟩ :=
    @transfer_outcome gp' tq hgpwf hgpknd htqs' htqk'
  have hfg : fwd.geo.parm sp.name = some gp' := by
    show findParmIn fwd.geo.parms sp.name = some gp'
    rw [hparmsF]
    exact hgeo2parm
  have hgpmem : gp' ∈ fwd.geo.parms := findParmIn_mem hfg
  have hmemB : gp' ∈ fwd.geo.parms.filter (fun p => p.name ∉ ["sopoutput"]) :=
    List.mem_filter.mpr ⟨hgpmem, by simp [hgpn, hnsop]⟩
  have hfwdnames : fwd.geo.parms.map Parm.name = geoType.parmDefaults.map ParmDefault.name := by
    rw [hparmsF, foldlM_copy_names hcopyF, setParm_names hset]
    exact fresh_names _
  have hndB : ((fwd.geo.parms.filter (fun p => p.name ∉ ["sopoutput"])).map Parm.name).Nodup := by
    have hall : (fwd.geo.parms.map Parm.name).Nodup := by
      rw [hfwdnames]
      exact hGnd
    exact hall.sublist ((List.filter_sublist _).map Parm.name)
  have hnfB : gp'.isFolder = false := by
    rw [hgpf, freshParmOf_isFolder, hgdf, hnf]
  have htk1' : tk1.parm gp'.name = some tq := by
    rw [hgpn]
    exact htk1parm
  obtain ⟨fp', htrB', htkcparm⟩ := foldlM_copy_parm_self hcopyB hmemB hndB hnfB htk1'
  have hfpeq : fp' = fp := by
    rw [htrB] at htrB'
    exact ((Except.ok.injEq _ _).mp htrB').symm
  rw [hfpeq] at htkcparm
  refine ⟨fp, ?_, ?_, ?_⟩
  · show findParmIn tk2.parms sp.name = some fp
    rw [hparmsB]
    rw [hgpn] at htkcparm
    exact htkcparm
  · rw [hfpk, hgpk]
  · intro hk
    rw [hfpv0 (by rw [hgpk]; exact hk), hgpv0 hk]

/-- Concrete regular-geometry node type used by the round-trip witness. -/
def c1GeoType : NodeType :=
  ⟨[⟨"sopoutput", false, true, [], [], .sval ""⟩,
    ⟨"knob", false, false, [], [], .ival 0⟩,
    ⟨"anim", false, false, [], [], .ival 0⟩,
    ⟨"note", false, true, [], [], .sval ""⟩], 4⟩

/-- Concrete Toolkit-geometry node type used by the round-trip witness. -/
def c1TkType : NodeType :=
  ⟨[⟨"sopoutput", false, false, ["sgtk"], ["/path/x.bgeo"], .ival 0⟩,
    ⟨"output_profile", false, false, [], ["Main"], .ival 0⟩,
    ⟨"knob", false, false, [], [], .ival 0⟩,
    ⟨"anim", false, false, [], [], .ival 0⟩,
    ⟨"note", false, true, [], [], .sval ""⟩], 4⟩

/-- Concrete Toolkit Geometry node used by the round-trip witness. -/
def c1Node : Node where
  name := "cache1"
  path := "/obj/geo1/cache1"
  parms :=
    [⟨"sopoutput", false, false, ["sgtk"], ["/path/x.bgeo"], [], .ival 0⟩,
     ⟨"output_profile", false, false, [], ["Main"], [], .ival 0⟩,
     ⟨"knob", false, false, [], [], [], .ival 5⟩,
     ⟨"anim", false, false, [], [], [⟨1, 10, "sin($F)"⟩], .ival 0⟩,
     ⟨"note", false, true, [], [], [], .sval "hello $HIP"⟩]
  userData := []
  cacheFields := none
  pathCache := none
  color := ⟨1, 0, 0⟩
  position := (1, 2)
  inputConnections := []
  outputConnections := []
  numInputConnectors := 4

/-- Forward-conversion result on the witness node. -/
def c1Fwd : ForwardResult :=
  match convert_to_regular_geometry_node c1GeoType true c1Node with
  | .ok r => r
  | .error _ => ⟨c1Node, []⟩

/-- Backward-conversion result on the witness node. -/
def c1Bwd : BackResult :=
  match convert_back_to_tk_geometry_node c1TkType true (fun _ => true) c1Fwd.geo with
  | .ok r => r
  | .error _ => ⟨none, [], []⟩

/-- The node obtained after the full round trip on the witness node. -/
def c1Tk2 : Node :=
  match c1Bwd.converted with
  | some n => n
  | none => c1Node

theorem c1_roundtrip_witness :
    ∃ fp, c1Tk2.parm "knob" = some fp ∧ fp.keyframes = ([] : List Keyframe) ∧
      (([] : List Keyframe) = [] → fp.val = .ival 5) :=
  c1_roundtrip_preserves_parms c1GeoType c1TkType true true (fun _ => true)
    c1Node c1Fwd c1Bwd c1Tk2 (by decide) (by decide) (by decide) (by decide)
    (by decide) (by decide) rfl rfl rfl
    ⟨"knob", false, false, [], [], [], .ival 5⟩ (by decide) (by decide) (by decide)
    (by decide) (by decide)

theorem mapM_restore_ok (outputs : List OutRec) (exF : String → Bool)
    (h : ∀ r ∈ outputs, exF r.node = true) :
    (outputs.mapM fun r =>
      if exF r.node then Except.ok (GraphAction.setExternalInput r.node r.input)
      else Except.error PyErr.attributeError)
    = .ok (outputs.map fun r => GraphAction.setExternalInput r.node r.input) := by
  induction outputs with
  | nil => rfl
  | cons r rs ih =>
    rw [List.mapM_cons, if_pos (h r (List.mem_cons_self r rs)),
      ih fun x hx => h x (List.mem_cons_of_mem r hx)]
    rfl

theorem string_append_data (a b : String) : (a ++ b).data = a.data ++ b.data := rfl

theorem pyFindCharList_prefix (c : Char) (l1 rest : List Char)
    (h1 : ∀ x ∈ l1, x ≠ c) :
    pyFindCharList c (l1 ++ c :: rest) = some l1.length := by
  induction l1 with
  | nil => simp [pyFindCharList]
  | cons x xs ih =>
    simp only [List.cons_append, pyFindCharList, List.append_eq]
    rw [if_neg (h1 x (List.mem_cons_self x xs)),
      ih fun y hy => h1 y (List.mem_cons_of_mem x hy)]
    rfl

/-- C2: encoding an output-connection list with the sgtk-01 codec and
decoding the result returns the original list; consequently saving a
node's output connections to user data with save_outputs_to_user_data and
then restoring with restore_outputs_from_user_data (on a fresh target
node, with every recorded downstream node still present) re-wires exactly
the original target-node-path / input-slot-index pairs. -/
theorem c2_codec_roundtrip_save_restore
    (recs : List OutRec) (src : Node) (tgtType : NodeType) (exF : String → Bool)
    (hex : ∀ c ∈ src.outputConnections, exF c.outputNode = true) :
    sgtk01Decode (sgtk01Encode recs) = .ok recs ∧
    ∃ saved, save_outputs_to_user_data src (freshNode tgtType) = .ok saved ∧
      restore_outputs_from_user_data saved exF =
        .ok (src.outputConnections.map fun c =>
          GraphAction.setExternalInput c.outputNode c.inputIndex) := by
  refine ⟨sgtk01Decode_sgtk01Encode recs, ?_⟩
  by_cases hoc : src.outputConnections = []
  · refine ⟨freshNode tgtType, by rw [save_outputs_to_user_data, if_pos hoc], ?_⟩
    rw [hoc]
    rfl
  · set outputs := src.outputConnections.map fun c => OutRec.mk c.outputNode c.inputIndex
      with houtputs
    have hlk : alistLookup TK_OUTPUT_CONNECTION_CODECS TK_OUTPUT_CONNECTION_CODEC =
        some ⟨sgtk01Encode, sgtk01Decode⟩ := rfl
    set payload := sgtk01Encode outputs with hpayload
    set dataStr := TK_OUTPUT_CONNECTION_CODEC ++ ":" ++ payload with hds
    have hsave : save_outputs_to_user_data src (freshNode tgtType) =
        .ok ((freshNode tgtType).setUserData "tk_output_connections" dataStr) := by
      rw [save_outputs_to_user_data, if_neg hoc]
      rw [hlk]
    refine ⟨_, hsave, ?_⟩
    have hlit : ("sgtk-01:" : String).data = ['s', 'g', 't', 'k', '-', '0', '1', ':'] := rfl
    have hdata : dataStr.data = ['s', 'g', 't', 'k', '-', '0', '1', ':'] ++ payload.data := by
      rw [hds]
      rfl
    have hlookup : alistLookup
        ((freshNode tgtType).setUserData "tk_output_connections" dataStr).userData
        "tk_output_connections" = some dataStr := rfl
    have hne : dataStr ≠ "" := by
      intro h
      have := congrArg String.data h
      rw [hdata] at this
      simp at this
    have hpc : ∀ ch ∈ payload.data, ch ≠ ':' := sgtk01Encode_ne_colon outputs
    have hfindl : pyFindCharList ':' dataStr.data = some 7 := by
      rw [hdata]
      exact pyFindCharList_prefix ':' ['s', 'g', 't', 'k', '-', '0', '1'] payload.data (by decide)
    have hfind : pyFindChar dataStr ':' = 7 := by
      rw [pyFindChar, hfindl]
      rfl
    have hslice1 : pySliceTo dataStr 7 = "sgtk-01" := by
      rw [pySliceTo, if_neg (by norm_num), hdata]
      rfl
    have hslice2 : pySliceFrom dataStr (7 + 1) = payload := by
      rw [pySliceFrom, if_neg (by norm_num), hdata]
      rfl
    rw [restore_outputs_from_user_data]
    simp only [hlookup]
    rw [if_neg hne, hfind, hslice1, hslice2]
    have hcodec : alistLookup TK_OUTPUT_CONNECTION_CODECS "sgtk-01" =
        some ⟨sgtk01Encode, sgtk01Decode⟩ := rfl
    simp only [hcodec]
    have hdec : sgtk01Decode payload = .ok outputs := sgtk01Decode_sgtk01Encode outputs
    simp only [hdec]
    have hone : outputs ≠ [] := by
      rw [houtputs]
      simp [hoc]
    rw [if_neg hone]
    have hexo : ∀ r ∈ outputs, exF r.node = true := by
      intro r hr
      rw [houtputs] at hr
      obtain ⟨c, hc, rfl⟩ := List.mem_map.mp hr
      exact hex c hc
    rw [mapM_restore_ok outputs exF hexo, houtputs, List.map_map]
    rfl

/-- Concrete node with output connections used by the codec witness. -/
def c2Src : Node where
  name := "out1"
  path := "/obj/out1"
  parms := []
  userData := []
  cacheFields := none
  pathCache := none
  color := ⟨0, 0, 0⟩
  position := (0, 0)
  inputConnections := []
  outputConnections := [⟨"/obj/merge1", 0⟩, ⟨"/obj/render", 2⟩]
  numInputConnectors := 0

theorem c2_codec_witness :
    sgtk01Decode (sgtk01Encode [⟨"/obj/a", 0⟩, ⟨"/obj/b", 3⟩]) =
      .ok [⟨"/obj/a", 0⟩, ⟨"/obj/b", 3⟩] ∧
    ∃ saved, save_outputs_to_user_data c2Src (freshNode ⟨[], 0⟩) = .ok saved ∧
      restore_outputs_from_user_data saved (fun _ => true) =
        .ok (c2Src.outputConnections.map fun c =>
          GraphAction.setExternalInput c.outputNode c.inputIndex) :=
  c2_codec_roundtrip_save_restore [⟨"/obj/a", 0⟩, ⟨"/obj/b", 3⟩] c2Src ⟨[], 0⟩
    (fun _ => true) (by decide)

/-! ### The environment: toolkit services, filesystem and session state

The pipeline toolkit (templates, context fields, publish registry), the
pyseq sequence scanner, the alembic time-range query and the session's
other nodes are external collaborators; they enter the model as data and
function fields of an environment record. -/

/-- The toolkit work-file template (external):
validate and get_fields are the only calls made. -/
structure WorkTemplate where
  validate : String → Bool
  get_fields : String → List (String × String)

/-- A toolkit path template (external): apply_fields on the two dict
shapes the handler builds, and get_fields restricted to the version key
(the only field auto_version reads). -/
structure SgTemplate where
  applyCacheFields : CacheFields → List (String × String) → String
  applyBackupFields : BackupFields → List (String × String) → String
  getFieldsVersion : String → Int

/-- A pyseq sequence (external library), as its frame list. -/
structure PySeq where
  frames : List Int
deriving DecidableEq, Repr

/-- A dependent sgtk_file node as read by check_seq. -/
structure DepNode where
  name : String
  typeName : String
  mode : String
  rop : String
  overver : Int
deriving DecidableEq, Repr

/-- A node under /obj as read by the auto_publish reference scan. -/
structure ObjNode where
  typeName : String
  parmEval : String → String

/-- The external world of one handler call: UI state, hip file, toolkit
templates and context fields, output profiles, filesystem and scene
queries. -/
structure Env where
  uiAvailable : Bool
  hipFilePath : String
  envHip : Option String
  work_file_template : Option WorkTemplate
  templates : List (String × SgTemplate)
  asTemplateFields : String → List (String × String)
  output_profiles : List (String × OutputProfile)
  abstractPaths : AvFields → List (String × String) → List String
  osSep : Char
  getSequences : String → List PySeq
  pathExists : String → Bool
  alembicTimeRange : String → Option (ℚ × ℚ)
  fps : ℚ
  findPublishCount : String → Nat
  objNodes : List ObjNode
  dependents : List DepNode

/-- The work-file path used by _get_hipfile_fields: the current hip file
when the UI is available, else the NOZ_HIPFILE environment variable (and
the empty string, with a logged error, when that is unset). -/
def hipPathUsed (env : Env) : String :=
  if env.uiAvailable then env.hipFilePath
  else
    match env.envHip with
    | some p => p
    | none => ""

/-- _get_hipfile_fields (handler.py lines 781-800): fields extracted from
the current work file by the work-file template; empty when there is no
template or the path does not validate. -/
def get_hipfile_fields (env : Env) : List (String × String) :=
  match env.work_file_template with
  | some wt =>
    if wt.validate (hipPathUsed env) then wt.get_fields (hipPathUsed env) else []
  | none => []

/-- _getNodeName (handler.py lines 684-689): replace "-" and "_" by
spaces, split, and join with every later word capitalized (an empty
name would raise IndexError at name[0]). -/
def getNodeName (node : Node) : Except PyErr String :=
  match pySplitWhitespace (pyReplaceChar (pyReplaceChar node.name '-' ' ') '_' ' ') with
  | [] => .error .indexError
  | w :: ws => .ok (w ++ String.join (ws.map pyCapitalize))

/-- The extension read from the types menu parm:
type_parm.menuLabels()[type_parm.evalAsInt()]. -/
def getTypesExt (node : Node) : Except PyErr String :=
  match node.parm "types" with
  | none => .error .attributeError
  | some p =>
    match p.val with
    | .sval _ => .error .typeError
    | .ival i => pyListGet p.menuLabels i

/-- hou.Parm.evalAsInt of a named parameter. -/
def evalAsInt (node : Node) (nm : String) : Except PyErr Int :=
  match node.parm nm with
  | none => .error .attributeError
  | some p =>
    match p.val with
    | .ival n => .ok n
    | .sval _ => .error .typeError

/-- _get_output_profile (handler.py lines 769-778): the profile record
for the currently selected profile menu label. -/
def get_output_profile (env : Env) (node : Node) : Except PyErr OutputProfile :=
  match node.parm "output_profile" with
  | none => .error .attributeError
  | some pp =>
    match pp.val with
    | .sval _ => .error .typeError
    | .ival i =>
      match pyListGet pp.menuLabels i with
      | .error e => .error e
      | .ok nm =>
        match alistLookup env.output_profiles nm with
        | none => .error .keyError
        | some prof => .ok prof

/-- app.get_template_by_name: raises a TankError when no template of
that name exists. -/
def get_template_by_name (env : Env) (nm : String) : Except PyErr SgTemplate :=
  match alistLookup env.templates nm with
  | none => .error (.tankError "Template not found")
  | some t => .ok t

/-- The fields dict of _compute_output_path (handler.py lines 738-746),
built from the work-file fields, the node's parms and name, the selected
profile and the hip file path. -/
def computeCacheFields (env : Env) (node : Node) (wf : List (String × String)) :
    Except PyErr CacheFields := do
  let ext ← getTypesExt node
  let nodeName ← getNodeName node
  let ver ← evalAsInt node "ver"
  let prof ← get_output_profile env node
  return ⟨alistLookup wf "name", nodeName, ver, ext, "FORMAT: $F", prof, env.hipFilePath⟩

/-- _compute_output_path (handler.py lines 725-766): raise a TankError
when the current file yields no work-file fields; otherwise build the
fields dict and compare it with the cached copy — on a hit return the
cached path without applying the template, on a miss store the fields,
apply the cache template (with the context fields merged in), normalise
separators, store the path and return it.  The returned flag records
whether the template was applied (the path recomputed). -/
def compute_output_path (env : Env) (node : Node) :
    Except PyErr (Option String × Node × Bool) := do
  let wf := get_hipfile_fields env
  if wf = [] then
    .error (.tankError "This Houdini file is not a Shotgun Toolkit work file!")
  else do
    let f ← computeCacheFields env node wf
    if node.cacheFields ≠ some f then
      let node1 : Node := { node with cacheFields := some f }
      match get_template_by_name env f.output_profile.output_cache_template with
      | .error e => .error e
      | .ok tpl =>
        let ctx := env.asTemplateFields f.output_profile.output_cache_template
        let path := pyReplaceChar (tpl.applyCacheFields f ctx) env.osSep '/'
        let node2 : Node := { node1 with pathCache := some path }
        .ok (some path, node2, true)
    else
      .ok (node.pathCache, node, false)

/-- _compute_backup_output_path (handler.py lines 692-722): same
work-file check, then the backup fields dict applied to the backup
template; not memoized. -/
def compute_backup_output_path (env : Env) (node : Node) : Except PyErr String := do
  let wf := get_hipfile_fields env
  if wf = [] then
    .error (.tankError "This Houdini file is not a Shotgun Toolkit work file!")
  else do
    let ext ← getTypesExt node
    let nodeName ← getNodeName node
    let ver ← evalAsInt node "ver"
    let fields : BackupFields := ⟨alistLookup wf "name", nodeName, ver, ext⟩
    let prof ← get_output_profile env node
    match get_template_by_name env prof.output_backup_template with
    | .error e => .error e
    | .ok tpl =>
      let ctx := env.asTemplateFields prof.output_backup_template
      return pyReplaceChar (tpl.applyBackupFields fields ctx) env.osSep '/'

/-- auto_version (handler.py lines 583-620): find the highest version
field among the abstract cache paths for the current fields, set the ver
parm to one more, then compute the output path and create its directory
when missing (the filesystem is the list of existing directories). -/
def auto_version (env : Env) (fs : List String) (node : Node) :
    Except PyErr (Node × List String) := do
  let prof ← get_output_profile env node
  let tpl ← get_template_by_name env prof.output_cache_template
  let ext ← getTypesExt node
  let nodeName ← getNodeName node
  let avf : AvFields := ⟨alistLookup (get_hipfile_fields env) "name", nodeName, "FORMAT: $F", ext⟩
  let ctx := env.asTemplateFields prof.output_cache_template
  let caches := env.abstractPaths avf ctx
  let maxVersion := caches.foldl
    (fun m c => if tpl.getFieldsVersion c > m then tpl.getFieldsVersion c else m) 0
  let node1 ← node.setParm "ver" (.ival (maxVersion + 1))
  let (pathOpt, node2, _) ← compute_output_path env node1
  match pathOpt with
  | none => .ok (node2, fs)
  | some path =>
    if path ≠ "" then
      let dir := pyDirname path
      if fs.contains dir then .ok (node2, fs) else .ok (node2, fs ++ [dir])
    else .ok (node2, fs)

/-- Modelled from the spec: pyseq Sequence.missing (external library):
the frames between the first and last frame that are not on disk. -/
def missingFrames (s : PySeq) : List Int :=
  let a := s.frames.headD 0
  let b := s.frames.getLastD 0
  ((List.range (b - a).toNat).map fun i => a + (i : Int) + 1).filter
    fun f => ¬ s.frames.contains f

/-- A frame range rendered as in pyseq formats. -/
def fmtRange (a b : Int) : String :=
  if a = b then toString a else toString a ++ "-" ++ toString b

/-- Group a list of frames into maximal consecutive runs. -/
def groupRuns : List Int → List (Int × Int)
  | [] => []
  | x :: xs =>
    match groupRuns xs with
    | [] => [(x, x)]
    | (a, b) :: t => if a = x + 1 then (x, b) :: t else (x, x) :: (a, b) :: t

/-- Comma-separated join. -/
def joinComma : List String → String
  | [] => ""
  | [s] => s
  | s :: rest => s ++ ", " ++ joinComma rest

/-- Modelled from the spec: the pyseq format directives used by
check_seq: the start frame. -/
def seqFormatS (s : PySeq) : String := toString (s.frames.headD 0)

/-- Modelled from the spec: pyseq end-frame directive. -/
def seqFormatE (s : PySeq) : String := toString (s.frames.getLastD 0)

/-- Modelled from the spec: pyseq missing-ranges directive. -/
def seqFormatM (s : PySeq) : String :=
  "[" ++ joinComma ((groupRuns (missingFrames s)).map fun r => fmtRange r.1 r.2) ++ "]"

/-- Modelled from the spec: pyseq implied-range directive. -/
def seqFormatR (s : PySeq) : String :=
  fmtRange (s.frames.headD 0) (s.frames.getLastD 0)

/-- The status label for an incomplete sequence
(handler.py line 636). -/
def missingLabel (s : PySeq) : String :=
  "[" ++ seqFormatS s ++ "-" ++ seqFormatE s ++ "], missing " ++ seqFormatM s

/-- hou.Color((0, 0.8, 0)), the no-cache/invalid colour. -/
def greenColor : Color := ⟨0, 0.8, 0⟩

/-- hou.Color((0.8, 0, 0)), the cache-exists colour. -/
def redColor : Color := ⟨0.8, 0, 0⟩

/-- Python int() truncation toward zero on a rational. -/
def pyIntOfRat (q : ℚ) : Int := if q < 0 then -((-q).floor) else q.floor

/-- Python path.split with "."; the last component. -/
def splitOnDot : List Char → List (List Char)
  | [] => [[]]
  | c :: cs =>
    let r := splitOnDot cs
    if c = '.' then [] :: r
    else
      match r with
      | [] => [[c]]
      | h :: t => (c :: h) :: t

/-- The extension after the last dot (Python s.split(".")[-1]). -/
def lastDotComponent (s : String) : String :=
  String.mk ((splitOnDot s.data).getLastD [])

/-- check_seq (handler.py lines 622-671): compute the output path,
classify it (frame sequence via pyseq when it contains the $F4 token,
alembic archive, single frame or no cache), set the node colour and
seqlabel parm accordingly, and propagate the label to dependent
sgtk_file nodes in out-mode pointing at this node without a version
override (returned as name/label assignments). -/
def check_seq (env : Env) (node : Node) : Except PyErr (Node × List (String × String)) := do
  let (pathOpt, node1, _) ← compute_output_path env node
  match pathOpt with
  | none => .error .typeError
  | some path =>
    let (returnStr, nodeColor) :=
      if listContainsSub "$F4".data path.data then
        let p2 := String.mk (replaceSubList "$F4".data "*".data path.data)
        match env.getSequences p2 with
        | [s] =>
          if s.frames ≠ [] then
            if missingFrames s ≠ [] then (missingLabel s, redColor)
            else (seqFormatR s, redColor)
          else ("Invalid Sequence Object!", greenColor)
        | _ => ("No or multiple sequences detected!", greenColor)
      else if lastDotComponent path = "abc" then
        if env.pathExists path then
          match env.alembicTimeRange path with
          | some (t0, t1) =>
            ("[" ++ toString (pyIntOfRat (t0 * env.fps)) ++ "-" ++
              toString (pyIntOfRat (t1 * env.fps)) ++ "] - ABC Archive", redColor)
          | none => ("Single Abc", redColor)
        else ("No Cache!", greenColor)
      else
        if env.pathExists path then ("Single Frame", redColor)
        else ("No Cache!", greenColor)
    let deps := env.dependents.filter fun d =>
      d.typeName = "sgtk_file" ∧ d.mode = "out" ∧ d.rop = node1.path ∧ d.overver = 0
    let acts := deps.map fun d => (d.name, returnStr)
    let node2 : Node := { node1 with color := nodeColor }
    let node3 ← node2.setParm "seqlabel" (.sval returnStr)
    return (node3, acts)

/-- get_output_path_menu_items (handler.py lines 358-375): compute the
path for the menu, catching TankError into an error menu entry; when the
UI is available, set the sopoutput_child parm to the local variable path
— which on the TankError branch was never bound, so that access raises
NameError.  Returns the menu (entries are Python values, None possible)
and the updated node. -/
def get_output_path_menu_items (env : Env) (node : Node) :
    Except PyErr (List (Option String) × Node) :=
  match compute_output_path env node with
  | .ok (p, node1, _) =>
    if env.uiAvailable then
      match node1.parm "sopoutput_child" with
      | none => .error .attributeError
      | some _ =>
        match p with
        | none => .error .typeError
        | some ps =>
          match node1.setParm "sopoutput_child" (.sval ps) with
          | .error e => .error e
          | .ok node2 => .ok ([p, p], node2)
    else .ok ([p, p], node1)
  | .error (.tankError m) =>
    let emsg := "Unable to construct the output path menu items: " ++ node.name ++ " - " ++ m
    let menuStr := "ERROR: " ++ emsg
    if env.uiAvailable then
      match node.parm "sopoutput_child" with
      | none => .error .attributeError
      | some _ => .error .nameError
    else .ok ([some menuStr, some menuStr], node)
  | .error e => .error e

/-- A call into the toolkit publish registry or the logger made by
auto_publish, in order. -/
inductive PubAction
  | registerPublish (path : String) (name : String) (fileType : String)
      (version : Int) (deps : List String)
  | logError (msg : String)
  | logInfo (msg : String)
deriving DecidableEq, Repr

/-- The reference path contributed by one /obj node in the auto_publish
scene walk (handler.py lines 539-552). -/
def refPathOf (sep : Char) (n : ObjNode) : Option String :=
  if n.typeName = "alembicarchive" then some (pyReplaceChar (n.parmEval "fileName") '/' sep)
  else if n.typeName = "abc_cam" then some (pyReplaceChar (n.parmEval "abcFile") '/' sep)
  else if n.typeName = "sgtk_file" ∧ n.parmEval "mode" = "file" then
    some (pyReplaceChar (n.parmEval "file") '/' sep)
  else if n.typeName = "arnold_procedural" then
    some (pyReplaceChar (n.parmEval "ar_filename") '/' sep)
  else none

/-- All dependency reference paths found in the scene (falsy empty
strings are skipped, as by the `if hou_path` check). -/
def scanRefs (env : Env) : List String :=
  env.objNodes.filterMap fun n =>
    match refPathOf env.osSep n with
    | some p => if p = "" then none else some p
    | none => none

/-- The published-file-type chain of auto_publish (handler.py lines
566-574): starts None, every branch (including the final else) assigns a
name. -/
def computeFileTypeName (cache_type : String) : Option String :=
  if cache_type = "bgeo.sc" then some "Bgeo Cache"
  else if cache_type = "abc" then some "Alembic Cache"
  else if cache_type = "exr" then some "Texture"
  else some (pyTitle cache_type ++ " Cache")

/-- auto_publish (handler.py lines 529-581): when the cache path has no
existing publish, register the backup hip file and then the cache (with
the published-file type from the extension chain); the unreachable
fallback logs an error instead of registering the cache.  Expressed as
the ordered list of registry/log calls. -/
def auto_publish (env : Env) (node : Node) : Except PyErr (List PubAction) := do
  let (cachePathOpt, node1, _) ← compute_output_path env node
  match cachePathOpt with
  | none => .error .typeError
  | some cachePath =>
    if env.findPublishCount cachePath = 0 then do
      let refs := scanRefs env
      let ver ← evalAsInt node1 "ver"
      let backupPath ← compute_backup_output_path env node1
      let nodeName ← getNodeName node1
      let cacheType ← getTypesExt node1
      let a1 := PubAction.registerPublish backupPath nodeName "Backup File" ver refs
      match computeFileTypeName cacheType with
      | some t =>
        if t ≠ "" then
          return [a1, PubAction.registerPublish cachePath nodeName t ver [backupPath]]
        else
          return [a1, PubAction.logError "Could not find the cache_type in auto_publish function!"]
      | none =>
        return [a1, PubAction.logError "Could not find the cache_type in auto_publish function!"]
    else
      return [PubAction.logInfo "Trying to register cache that already exists!"]

/-! ### Claim theorems about path computation -/

theorem computeCacheFields_congr (env : Env) (wf : List (String × String)) (n n' : Node)
    (hp : n'.parms = n.parms) (hn : n'.name = n.name) :
    computeCacheFields env n' wf = computeCacheFields env n wf := by
  simp only [computeCacheFields, getTypesExt, getNodeName, evalAsInt, get_output_profile,
    Node.parm, hp, hn]

theorem compute_output_path_parms {env : Env} {n : Node} {p : Option String}
    {n2 : Node} {b : Bool} (h : compute_output_path env n = .ok (p, n2, b)) :
    n2.parms = n.parms ∧ n2.name = n.name := by
  rw [compute_output_path] at h
  by_cases hwf : get_hipfile_fields env = []
  · rw [if_pos hwf] at h
    exact absurd h (by simp)
  · rw [if_neg hwf] at h
    cases hf : computeCacheFields env n (get_hipfile_fields env) with
    | error e => rw [hf] at h; exact absurd h (by simp [Bind.bind, Except.bind])
    | ok f =>
      rw [hf] at h
      simp only [Bind.bind, Except.bind] at h
      by_cases hc : n.cacheFields ≠ some f
      · rw [if_pos hc] at h
        cases ht : get_template_by_name env f.output_profile.output_cache_template with
        | error e => simp [ht] at h
        | ok tpl =>
          simp only [ht, Except.ok.injEq, Prod.mk.injEq] at h
          obtain ⟨-, h2, -⟩ := h
          rw [← h2]
          exact ⟨rfl, rfl⟩
      · rw [if_neg hc] at h
        simp only [Except.ok.injEq, Prod.mk.injEq] at h
        obtain ⟨-, h2, -⟩ := h
        rw [← h2]
        exact ⟨rfl, rfl⟩

/-- C3: calling _compute_output_path a second time while the computed
fields dict is unchanged returns the cached path string from the node's
cached user data without applying the template again (the recompute flag
is false); and whenever the cached fields differ from the freshly
computed dict, the cache is invalidated and the path recomputed (the
flag is true). -/
theorem c3_compute_output_path_memoized
    (env env2 : Env) (node n1 : Node) (p : String) (r : Bool)
    (f0 f' : CacheFields) (tpl : SgTemplate)
    (h : compute_output_path env node = .ok (some p, n1, r)) :
    compute_output_path env n1 = .ok (some p, n1, false) ∧
    (n1.cacheFields = some f0 →
      get_hipfile_fields env2 ≠ [] →
      computeCacheFields env2 n1 (get_hipfile_fields env2) = .ok f' →
      f' ≠ f0 →
      get_template_by_name env2 f'.output_profile.output_cache_template = .ok tpl →
      ∃ p2 n2, compute_output_path env2 n1 = .ok (some p2, n2, true)) := by
  constructor
  · rw [compute_output_path] at h
    by_cases hwf : get_hipfile_fields env = []
    · rw [if_pos hwf] at h
      exact absurd h (by simp)
    · rw [if_neg hwf] at h
      cases hf : computeCacheFields env node (get_hipfile_fields env) with
      | error e => rw [hf] at h; exact absurd h (by simp [Bind.bind, Except.bind])
      | ok f =>
        rw [hf] at h
        simp only [Bind.bind, Except.bind] at h
        by_cases hc : node.cacheFields ≠ some f
        · rw [if_pos hc] at h
          cases ht : get_template_by_name env f.output_profile.output_cache_template with
          | error e => simp [ht] at h
          | ok tpl0 =>
            simp only [ht, Except.ok.injEq, Prod.mk.injEq] at h
            obtain ⟨hp, hn, -⟩ := h
            have hn1c : n1.cacheFields = some f := by rw [← hn]
            have hn1p : n1.pathCache = some p := by
              rw [← hn]
              exact hp
            rw [compute_output_path, if_neg hwf]
            have hcf2 : computeCacheFields env n1 (get_hipfile_fields env) = .ok f := by
              rw [computeCacheFields_congr env _ node n1 (by rw [← hn]) (by rw [← hn]), hf]
            simp only [hcf2, Bind.bind, Except.bind]
            rw [if_neg (by rw [hn1c]; simp), hn1p]
        · rw [if_neg hc] at h
          simp only [Except.ok.injEq, Prod.mk.injEq] at h
          obtain ⟨hp, hn, -⟩ := h
          rw [not_not] at hc
          have hn1c : n1.cacheFields = some f := by
            rw [← hn]
            exact hc
          have hn1p : n1.pathCache = some p := by
            rw [← hn]
            exact hp
          rw [compute_output_path, if_neg hwf]
          have hcf2 : computeCacheFields env n1 (get_hipfile_fields env) = .ok f := by
            rw [computeCacheFields_congr env _ node n1 (by rw [← hn]) (by rw [← hn]), hf]
          simp only [hcf2, Bind.bind, Except.bind]
          rw [if_neg (by rw [hn1c]; simp), hn1p]
  · intro hcf0 hwf2 hcff' hne htpl
    rw [compute_output_path, if_neg hwf2]
    simp only [hcff', Bind.bind, Except.bind]
    rw [if_pos (by rw [hcf0]; intro hx; exact hne ((Option.some.injEq _ _).mp hx).symm)]
    simp only [htpl]
    exact ⟨_, _, rfl⟩

/-- Concrete work-file template for the witnesses: any non-empty path
validates, with a fixed name field. -/
def cWT : WorkTemplate := ⟨fun s => s ≠ "", fun _ => [("name", "shot")]⟩

/-- Concrete cache/backup template for the witnesses. -/
def cTpl : SgTemplate where
  applyCacheFields := fun f _ =>
    "/prod/cache/" ++ f.node ++ "/v" ++ toString f.version ++ "/" ++ f.node ++ "." ++ f.ext
  applyBackupFields := fun f _ =>
    "/prod/backup/" ++ f.node ++ "_v" ++ toString f.version ++ ".hip"
  getFieldsVersion := fun s =>
    if s = "p1" then 1 else if s = "p2" then 2 else if s = "p5" then 5 else 0

/-- Concrete output profile for the witnesses. -/
def cProfile : OutputProfile := ⟨"Main", [], none, "cache_tpl", "backup_tpl"⟩

/-- Concrete environment for the path-computation witnesses. -/
def cEnv : Env where
  uiAvailable := true
  hipFilePath := "/hip/shot_v001.hip"
  envHip := none
  work_file_template := some cWT
  templates := [("cache_tpl", cTpl), ("backup_tpl", cTpl)]
  asTemplateFields := fun _ => []
  output_profiles := [("Main", cProfile)]
  abstractPaths := fun _ _ => ["p1", "p2", "p5"]
  osSep := '/'
  getSequences := fun _ => []
  pathExists := fun _ => false
  alembicTimeRange := fun _ => none
  fps := 24
  findPublishCount := fun _ => 0
  objNodes := []
  dependents := []

/-- Concrete Toolkit Geometry node for the path-computation witnesses. -/
def cNode : Node where
  name := "cache_1"
  path := "/obj/geo1/cache_1"
  parms :=
    [⟨"types", false, false, [], ["bgeo.sc"], [], .ival 0⟩,
     ⟨"ver", false, false, [], [], [], .ival 3⟩,
     ⟨"output_profile", false, false, [], ["Main"], [], .ival 0⟩,
     ⟨"seqlabel", false, true, [], [], [], .sval ""⟩,
     ⟨"sopoutput_child", false, true, [], [], [], .sval ""⟩]
  userData := []
  cacheFields := none
  pathCache := none
  color := ⟨0, 0, 0⟩
  position := (0, 0)
  inputConnections := []
  outputConnections := []
  numInputConnectors := 4

/-- First run of the path computation on the witness node. -/
def c3Run : Option String × Node × Bool :=
  match compute_output_path cEnv cNode with
  | .ok r => r
  | .error _ => (none, cNode, false)

/-- The path produced by the first witness run. -/
def c3Path : String :=
  match c3Run.1 with
  | some p => p
  | none => ""

/-- The node state after the first witness run. -/
def c3N1 : Node := c3Run.2.1

/-- Environment for the invalidation half of the memoization witness:
the hip file changed, so the hipfile field of the dict changes. -/
def c3Env2 : Env := { cEnv with hipFilePath := "/hip/shot_v002.hip" }

/-- The cached fields after the first witness run. -/
def c3F0 : CacheFields :=
  match c3N1.cacheFields with
  | some f => f
  | none => ⟨none, "", 0, "", "", cProfile, ""⟩

/-- The fields dict computed in the changed environment. -/
def c3F2 : CacheFields :=
  match computeCacheFields c3Env2 c3N1 (get_hipfile_fields c3Env2) with
  | .ok f => f
  | .error _ => c3F0

theorem c3_memoized_witness :
    compute_output_path cEnv c3N1 = .ok (some c3Path, c3N1, false) ∧
    (c3N1.cacheFields = some c3F0 →
      get_hipfile_fields c3Env2 ≠ [] →
      computeCacheFields c3Env2 c3N1 (get_hipfile_fields c3Env2) = .ok c3F2 →
      c3F2 ≠ c3F0 →
      get_template_by_name c3Env2 c3F2.output_profile.output_cache_template = .ok cTpl →
      ∃ p2 n2, compute_output_path c3Env2 c3N1 = .ok (some p2, n2, true)) :=
  c3_compute_output_path_memoized cEnv c3Env2 cNode c3N1 c3Path true c3F0 c3F2 cTpl rfl

theorem foldl_if_max (l : List String) (g : String → Int) (init : Int) :
    l.foldl (fun m c => if g c > m then g c else m) init = (l.map g).foldl max init := by
  induction l generalizing init with
  | nil => rfl
  | cons c cs ih =>
    simp only [List.foldl_cons, List.map_cons]
    rw [ih]
    congr 1
    by_cases h : g c > init
    · rw [if_pos h, max_eq_right (by omega)]
    · rw [if_neg h, max_eq_left (by omega)]

theorem pset_ival_shape {p r : Parm} {n : Int} (h : p.pset (.ival n) = .ok r) :
    r = { p with val := .ival n } := by
  rw [Parm.pset] at h
  split at h
  · exact absurd h (by simp)
  · exact ((Except.ok.injEq _ _).mp h).symm

theorem setParm_ival_self {T T1 : Node} {m : String} {n : Int}
    (h : T.setParm m (.ival n) = .ok T1) :
    ∃ p, T.parm m = some p ∧ T1.parm m = some { p with val := .ival n } := by
  rw [Node.setParm] at h
  cases hfp : T.parm m with
  | none => simp [hfp] at h
  | some p =>
    simp only [hfp] at h
    cases hps : p.pset (.ival n) with
    | error e => rw [hps] at h; exact absurd h (by simp [Except.map])
    | ok p' =>
      rw [hps] at h
      simp only [Except.map, Except.ok.injEq] at h
      subst h
      obtain rfl := pset_ival_shape hps
      refine ⟨p, rfl, replaceParm_parm_self ?_ hfp⟩
      have hname : ({ p with val := PVal.ival n } : Parm).name = p.name := rfl
      exact hname.trans (findParmIn_name hfp)

/-- C4: auto_version sets the node's ver parameter to one more than the
highest version field among the existing abstract cache paths for the
resolved template (so existing versions 1, 2, 5 give 6, and no existing
caches give 0 + 1 = 1), and then creates the destination directory of
the computed output path exactly when it does not already exist (the
filesystem is modelled as the list of existing directories). -/
theorem c4_auto_version
    (env : Env) (fs : List String) (node node' : Node) (fs' : List String)
    (prof : OutputProfile) (tpl : SgTemplate) (ext nodeName : String)
    (h : auto_version env fs node = .ok (node', fs'))
    (hprof : get_output_profile env node = .ok prof)
    (htpl : get_template_by_name env prof.output_cache_template = .ok tpl)
    (hext : getTypesExt node = .ok ext)
    (hnm : getNodeName node = .ok nodeName) :
    (∃ vp, node'.parm "ver" = some vp ∧
      vp.val = .ival (((env.abstractPaths
          ⟨alistLookup (get_hipfile_fields env) "name", nodeName, "FORMAT: $F", ext⟩
          (env.asTemplateFields prof.output_cache_template)).map
            tpl.getFieldsVersion).foldl max 0 + 1)) ∧
    (∀ n1 path flag,
      node.setParm "ver" (.ival (((env.abstractPaths
          ⟨alistLookup (get_hipfile_fields env) "name", nodeName, "FORMAT: $F", ext⟩
          (env.asTemplateFields prof.output_cache_template)).map
            tpl.getFieldsVersion).foldl max 0 + 1)) = .ok n1 →
      compute_output_path env n1 = .ok (some path, node', flag) → path ≠ "" →
      pyDirname path ∈ fs' ∧ (pyDirname path ∈ fs → fs' = fs) ∧
      (pyDirname path ∉ fs → fs' = fs ++ [pyDirname path])) := by
  rw [auto_version] at h
  simp only [hprof, htpl, hext, hnm, Bind.bind, Except.bind] at h
  rw [foldl_if_max] at h
  cases hset : node.setParm "ver" (.ival (((env.abstractPaths
      ⟨alistLookup (get_hipfile_fields env) "name", nodeName, "FORMAT: $F", ext⟩
      (env.asTemplateFields prof.output_cache_template)).map
        tpl.getFieldsVersion).foldl max 0 + 1)) with
  | error e => rw [hset] at h; exact absurd h (by simp)
  | ok n1 =>
    rw [hset] at h
    cases hcomp : compute_output_path env n1 with
    | error e => simp [hcomp] at h
    | ok res =>
      obtain ⟨pathOpt, node2, flag⟩ := res
      simp only [hcomp] at h
      constructor
      · obtain ⟨p0, hp0, hn1v⟩ := setParm_ival_self hset
        have hnode' : node'.parm "ver" = n1.parm "ver" := by
          have hparms : node'.parms = n1.parms := by
            have h2 := compute_output_path_parms hcomp
            have : node2 = node' := by
              cases hpo : pathOpt with
              | none =>
                simp only [hpo] at h
                exact ((Prod.mk.injEq _ _ _ _).mp ((Except.ok.injEq _ _).mp h)).1
              | some path =>
                simp only [hpo] at h
                by_cases hpe : path ≠ ""
                · rw [if_pos hpe] at h
                  by_cases hdir : fs.contains (pyDirname path)
                  · rw [if_pos hdir] at h
                    exact ((Prod.mk.injEq _ _ _ _).mp ((Except.ok.injEq _ _).mp h)).1
                  · rw [if_neg hdir] at h
                    exact ((Prod.mk.injEq _ _ _ _).mp ((Except.ok.injEq _ _).mp h)).1
                · rw [if_neg hpe] at h
                  exact ((Prod.mk.injEq _ _ _ _).mp ((Except.ok.injEq _ _).mp h)).1
            rw [← this]
            exact h2.1
          show findParmIn node'.parms "ver" = findParmIn n1.parms "ver"
          rw [hparms]
        rw [hnode', hn1v]
        exact ⟨_, rfl, rfl⟩
      · intro n1' path' flag' hset' hcomp' hpe
        have hn1eq : n1' = n1 := ((Except.ok.injEq _ _).mp hset').symm
        subst hn1eq
        rw [hcomp] at hcomp'
        obtain ⟨hpo, hn2, -⟩ := (Prod.mk.injEq _ _ _ _).mp ((Except.ok.injEq _ _).mp hcomp')
        simp only [hpo] at h
        rw [if_pos hpe] at h
        by_cases hdir : fs.contains (pyDirname path')
        · rw [if_pos hdir] at h
          obtain ⟨-, hfs⟩ := (Prod.mk.injEq _ _ _ _).mp ((Except.ok.injEq _ _).mp h)
          subst hfs
          refine ⟨by simpa using hdir, fun _ => rfl, fun hc => absurd (by simpa using hdir) hc⟩
        · rw [if_neg hdir] at h
          obtain ⟨-, hfs⟩ := (Prod.mk.injEq _ _ _ _).mp ((Except.ok.injEq _ _).mp h)
          subst hfs
          have hnd : pyDirname path' ∉ fs := by simpa using hdir
          exact ⟨List.mem_append.mpr (Or.inr (by simp)), fun hc => absurd hc hnd, fun _ => rfl⟩

/-- Result of the auto_version witness run (starting with no existing
directories; the environment reports existing cache versions 1, 2, 5). -/
def c4Run : Node × List String :=
  match auto_version cEnv [] cNode with
  | .ok r => r
  | .error _ => (cNode, [])

/-- Node state after the auto_version witness run. -/
def c4NodeAfter : Node := c4Run.1

/-- Filesystem state after the auto_version witness run. -/
def c4FsAfter : List String := c4Run.2

theorem c4_auto_version_witness :
    (∃ vp, c4NodeAfter.parm "ver" = some vp ∧ vp.val = .ival 6) ∧
    c4FsAfter = ["/prod/cache/cache1/v6"] :=
  ⟨(c4_auto_version cEnv [] cNode c4NodeAfter c4FsAfter cProfile cTpl "bgeo.sc" "cache1"
    rfl rfl rfl rfl rfl).1, rfl⟩

/-- C5: whenever the current work-file path does not validate against
the working-file template, _compute_output_path and
_compute_backup_output_path raise the domain-specific TankError before
computing anything: no path is produced and the node is left unchanged
(the functions return only the error, touching no node state). -/
theorem c5_invalid_workfile_raises
    (env : Env) (node : Node) (wt : WorkTemplate)
    (hwt : env.work_file_template = some wt)
    (hv : wt.validate (hipPathUsed env) = false) :
    compute_output_path env node =
      .error (.tankError "This Houdini file is not a Shotgun Toolkit work file!") ∧
    compute_backup_output_path env node =
      .error (.tankError "This Houdini file is not a Shotgun Toolkit work file!") := by
  have hempty : get_hipfile_fields env = [] := by
    rw [get_hipfile_fields]
    simp only [hwt]
    rw [if_neg (by simp [hv])]
  constructor
  · rw [compute_output_path, if_pos hempty]
  · rw [compute_backup_output_path, if_pos hempty]

/-- Environment whose hip file does not validate against the work-file
template. -/
def c5Env : Env := { cEnv with hipFilePath := "" }

theorem c5_invalid_workfile_witness :
    compute_output_path c5Env cNode =
      .error (.tankError "This Houdini file is not a Shotgun Toolkit work file!") ∧
    compute_backup_output_path c5Env cNode =
      .error (.tankError "This Houdini file is not a Shotgun Toolkit work file!") :=
  c5_invalid_workfile_raises c5Env cNode cWT rfl rfl

/-- C6 (amended) support: concrete node type and geometry node whose
stored profile name is not among the menu labels. -/
def c6TkType : NodeType :=
  ⟨[⟨"output_profile", false, false, [], ["Main"], .ival 0⟩], 4⟩

/-- Concrete geometry node with a stale stored profile name. -/
def c6Geo : Node where
  name := "geo_cache"
  path := "/obj/geo_cache"
  parms := []
  userData := [("tk_output_profile_name", "Stale")]
  cacheFields := none
  pathCache := none
  color := ⟨0, 0, 0⟩
  position := (3, 4)
  inputConnections := []
  outputConnections := []
  numInputConnectors := 0

/-- Result of converting back the stale-profile node. -/
def c6Result : BackResult :=
  match convert_back_to_tk_geometry_node c6TkType true (fun _ => true) c6Geo with
  | .ok r => r
  | .error _ => ⟨none, [], []⟩

theorem c6_stale_profile_counterexample :
    convert_back_to_tk_geometry_node c6TkType true (fun _ => true) c6Geo = .ok c6Result ∧
    c6Result.converted.isSome = true ∧
    c6Result.warnings = ["No output profile found named: Stale"] :=
  ⟨rfl, rfl, rfl⟩

/-- C6 (amended): during convert_back_to_tk_geometry_nodes, when the
stored output profile name is not found among the new node's profile
menu labels, a warning is logged and only the profile-menu selection is
skipped; the conversion still proceeds and the node is converted. -/
theorem c6_stale_profile_warns_but_converts
    (tkType : NodeType) (isSop : Bool) (exF : String → Bool) (geo : Node)
    (pname : String) (pp : Parm) (r : BackResult)
    (hud : alistLookup geo.userData "tk_output_profile_name" = some pname)
    (hne : pname ≠ "")
    (hpp : (freshNode tkType).parm "output_profile" = some pp)
    (hnotin : pyListIndex pp.menuLabels pname = none)
    (h : convert_back_to_tk_geometry_node tkType isSop exF geo = .ok r) :
    r.converted.isSome = true ∧
    ("No output profile found named: " ++ pname) ∈ r.warnings := by
  rw [convert_back_to_tk_geometry_node] at h
  simp only [hud] at h
  rw [if_neg hne] at h
  simp only [hpp] at h
  have hspl : setProfileByLabel (freshNode tkType) pp pname =
      .ok (freshNode tkType, ["No output profile found named: " ++ pname]) := by
    rw [setProfileByLabel, hnotin]
  simp only [hspl] at h
  cases h3 : copy_parm_values geo (freshNode tkType) ["sopoutput"] with
  | error e => simp [h3] at h
  | ok tkc =>
    simp only [h3] at h
    cases h4 : copy_inputs geo tkc with
    | error e => simp [h4] at h
    | ok tk3 =>
      simp only [h4] at h
      cases h5 : (if isSop then restore_outputs_from_user_data geo exF
          else Except.ok (move_outputs_actions geo)) with
      | error e => simp [h5] at h
      | ok acts =>
        simp only [h5] at h
        obtain rfl := ((Except.ok.injEq _ _).mp h)
        exact ⟨rfl, by simp⟩

theorem c6_stale_profile_witness :
    c6Result.converted.isSome = true ∧
    ("No output profile found named: " ++ "Stale") ∈ c6Result.warnings :=
  c6_stale_profile_warns_but_converts c6TkType true (fun _ => true) c6Geo
    "Stale" ⟨"output_profile", false, false, [], ["Main"], [], .ival 0⟩ c6Result
    rfl (by decide) rfl rfl rfl

/-- C7: _copy_inputs raises hou.InvalidInput immediately - before setting
any input - when the source node has more input connections than the target
node has input connectors, aborting the conversion of that node; otherwise
it succeeds and sets every source connection at its same input index on the
target (so a target with no prior connections and distinct per-slot indices,
as live nodes guarantee, ends up with exactly the source's connections). -/
theorem c7_copy_inputs_error_or_copies (source target : Node) :
    (source.inputConnections.length > target.numInputConnectors →
      copy_inputs source target = .error .invalidInput) ∧
    (source.inputConnections.length ≤ target.numInputConnectors →
      ∃ t', copy_inputs source target = .ok t' ∧
        t'.inputConnections =
          List.foldl (upsertBy InputConnection.inputIndex)
            target.inputConnections source.inputConnections ∧
        (target.inputConnections = [] →
          (source.inputConnections.map InputConnection.inputIndex).Nodup →
          t'.inputConnections = source.inputConnections)) := by
  constructor
  · intro hgt
    rw [copy_inputs, if_pos hgt]
  · intro hle
    rw [copy_inputs, if_neg (not_lt.mpr hle)]
    refine ⟨_, rfl, rfl, fun hemp hnd => ?_⟩
    show List.foldl (upsertBy InputConnection.inputIndex)
      target.inputConnections source.inputConnections = source.inputConnections
    rw [hemp, foldl_upsertBy_append _ _ _ hnd (by simp)]
    simp

/-- A source node with two input connections, for exercising _copy_inputs
against targets with one and with four input connectors. -/
def c7Source : Node :=
  { freshNode ⟨[], 0⟩ with
      inputConnections := [⟨0, "/obj/a"⟩, ⟨1, "/obj/b"⟩] }

theorem c7_copy_inputs_witness :
    copy_inputs c7Source (freshNode ⟨[], 1⟩) = .error .invalidInput ∧
    ∃ t', copy_inputs c7Source (freshNode ⟨[], 4⟩) = .ok t' ∧
      t'.inputConnections = c7Source.inputConnections := by
  constructor
  · exact (c7_copy_inputs_error_or_copies c7Source (freshNode ⟨[], 1⟩)).1 (by decide)
  · obtain ⟨t', h1, _, h3⟩ :=
      (c7_copy_inputs_error_or_copies c7Source (freshNode ⟨[], 4⟩)).2 (by decide)
    exact ⟨t', h1, h3 rfl (by decide)⟩

theorem check_seq_f4_run (env : Env) (node node1 : Node) (path : String) (b : Bool)
    (s : PySeq) (q : Parm) (lbl : String)
    (hcomp : compute_output_path env node = .ok (some path, node1, b))
    (hF4 : listContainsSub "$F4".data path.data = true)
    (hseq : env.getSequences
      (String.mk (replaceSubList "$F4".data "*".data path.data)) = [s])
    (hne : s.frames ≠ [])
    (hlbl : (if missingFrames s ≠ [] then missingLabel s else seqFormatR s) = lbl)
    (hq : node1.parm "seqlabel" = some q)
    (hqs : q.isString = true) :
    check_seq env node = .ok
      (({ node1 with color := redColor } : Node).replaceParm "seqlabel"
          { q with val := .sval lbl },
       (env.dependents.filter fun d =>
          d.typeName = "sgtk_file" ∧ d.mode = "out" ∧ d.rop = node1.path ∧
          d.overver = 0).map fun d => (d.name, lbl)) := by
  have hpair : (if missingFrames s ≠ [] then (missingLabel s, redColor)
      else (seqFormatR s, redColor)) = (lbl, redColor) := by
    by_cases hm : missingFrames s ≠ []
    · rw [if_pos hm] at hlbl ⊢
      rw [hlbl]
    · rw [if_neg hm] at hlbl ⊢
      rw [hlbl]
  have hq2 : ({ node1 with color := redColor } : Node).parm "seqlabel" = some q := hq
  have hset : ({ node1 with color := redColor } : Node).setParm "seqlabel" (.sval lbl) =
      .ok (({ node1 with color := redColor } : Node).replaceParm "seqlabel"
        { q with val := .sval lbl }) := by
    rw [Node.setParm]
    simp only [hq2]
    rw [pset_sval_ok _ hqs]
    rfl
  rw [check_seq]
  simp only [hcomp, Bind.bind, Except.bind]
  rw [if_pos hF4]
  simp only [hseq]
  rw [if_pos hne, hpair]
  simp only [hset, Bind.bind, Except.bind]
  rfl

/-- C8: in check_seq, when the resolved output path contains the $F4
frame-placeholder token and exactly one on-disk sequence (with a non-empty
frame list) matches the wildcarded path, the node is coloured red in both
outcomes — the green colour is unreachable in this case — and the seqlabel
status parm receives the full implied frame range when no frame is missing,
and the explicit missing-frame-range report otherwise. -/
theorem c8_check_seq_sequence_classification
    (env : Env) (node node1 : Node) (path : String) (b : Bool)
    (s : PySeq) (q : Parm)
    (hcomp : compute_output_path env node = .ok (some path, node1, b))
    (hF4 : listContainsSub "$F4".data path.data = true)
    (hseq : env.getSequences
      (String.mk (replaceSubList "$F4".data "*".data path.data)) = [s])
    (hne : s.frames ≠ [])
    (hq : node1.parm "seqlabel" = some q)
    (hqs : q.isString = true) :
    ∃ n2 acts, check_seq env node = .ok (n2, acts) ∧
      n2.color = redColor ∧ n2.color ≠ greenColor ∧
      ∃ q2, n2.parm "seqlabel" = some q2 ∧
        q2.val = .sval
          (if missingFrames s = [] then seqFormatR s else missingLabel s) := by
  have hqname : q.name = "seqlabel" := findParmIn_name hq
  have hlbl : (if missingFrames s ≠ [] then missingLabel s else seqFormatR s) =
      (if missingFrames s = [] then seqFormatR s else missingLabel s) := by
    by_cases hm : missingFrames s = [] <;> simp [hm]
  have hrun := check_seq_f4_run env node node1 path b s q _ hcomp hF4 hseq hne hlbl hq hqs
  refine ⟨_, _, hrun, rfl, ?_, ?_⟩
  · intro hEq
    have h08 : (0.8 : ℚ) = 0 := congrArg Color.r hEq
    norm_num at h08
  · exact ⟨_, replaceParm_parm_self hqname hq, rfl⟩

/-- Concrete cache template whose resolved path contains the $F4 frame
placeholder, for the sequence-classification witness. -/
def c8Tpl : SgTemplate where
  applyCacheFields := fun f _ =>
    "/prod/cache/" ++ f.node ++ "/v" ++ toString f.version ++ "/" ++
      f.node ++ ".$F4." ++ f.ext
  applyBackupFields := fun f _ =>
    "/prod/backup/" ++ f.node ++ "_v" ++ toString f.version ++ ".hip"
  getFieldsVersion := fun _ => 0

/-- Concrete on-disk sequence with frames 1, 2 and 5 (frames 3 and 4
missing). -/
def c8Seq : PySeq := ⟨[1, 2, 5]⟩

/-- Environment for the sequence-classification witness: the cache
template resolves to a $F4 path and exactly one sequence is on disk. -/
def c8Env : Env :=
  { cEnv with
      templates := [("cache_tpl", c8Tpl), ("backup_tpl", c8Tpl)],
      getSequences := fun _ => [c8Seq] }

/-- The path computation run feeding the sequence-classification
witness. -/
def c8Run : Option String × Node × Bool :=
  match compute_output_path c8Env cNode with
  | .ok r => r
  | .error _ => (none, cNode, false)

/-- The resolved $F4 path of the witness run. -/
def c8Path : String :=
  match c8Run.1 with
  | some p => p
  | none => ""

/-- The node state after the witness path computation. -/
def c8N1 : Node := c8Run.2.1

theorem c8_check_seq_witness :
    ∃ n2 acts, check_seq c8Env cNode = .ok (n2, acts) ∧
      n2.color = redColor ∧ n2.color ≠ greenColor ∧
      ∃ q2, n2.parm "seqlabel" = some q2 ∧
        q2.val = .sval
          (if missingFrames c8Seq = [] then seqFormatR c8Seq
           else missingLabel c8Seq) :=
  c8_check_seq_sequence_classification c8Env cNode c8N1 c8Path true c8Seq
    ⟨"seqlabel", false, true, [], [], [], .sval ""⟩
    rfl rfl rfl (by decide) rfl rfl

/-- C9: in get_output_path_menu_items, when _compute_output_path raises a
TankError and the UI is available, the method raises NameError at the
sopoutput_child assignment (the local variable path was never bound on the
error branch) instead of returning the constructed error menu; the error
menu is returned only when the UI is unavailable. -/
theorem c9_menu_items_nameerror (env : Env) (node : Node) (m : String)
    (herr : compute_output_path env node = .error (.tankError m))
    (hparm : (node.parm "sopoutput_child").isSome = true) :
    (env.uiAvailable = true →
      get_output_path_menu_items env node = .error .nameError) ∧
    (env.uiAvailable = false →
      get_output_path_menu_items env node =
        .ok ([some ("ERROR: " ++ "Unable to construct the output path menu items: "
                ++ node.name ++ " - " ++ m),
              some ("ERROR: " ++ "Unable to construct the output path menu items: "
                ++ node.name ++ " - " ++ m)], node)) := by
  obtain ⟨pp, hpp⟩ := Option.isSome_iff_exists.mp hparm
  constructor
  · intro hui
    rw [get_output_path_menu_items]
    simp only [herr]
    rw [if_pos hui]
    simp only [hpp]
  · intro hui
    rw [get_output_path_menu_items]
    simp only [herr]
    rw [if_neg (by simp [hui])]
    rfl

/-- The TankError-raising environment with the UI unavailable, for the
error-menu half of the menu-items witness. -/
def c9EnvNoUI : Env := { c5Env with uiAvailable := false }

theorem c9_menu_items_witness :
    get_output_path_menu_items c5Env cNode = .error .nameError ∧
    get_output_path_menu_items c9EnvNoUI cNode =
      .ok ([some ("ERROR: " ++ "Unable to construct the output path menu items: "
              ++ cNode.name ++ " - "
              ++ "This Houdini file is not a Shotgun Toolkit work file!"),
            some ("ERROR: " ++ "Unable to construct the output path menu items: "
              ++ cNode.name ++ " - "
              ++ "This Houdini file is not a Shotgun Toolkit work file!")],
           cNode) := by
  constructor
  · exact (c9_menu_items_nameerror c5Env cNode
      "This Houdini file is not a Shotgun Toolkit work file!" rfl rfl).1 rfl
  · exact (c9_menu_items_nameerror c9EnvNoUI cNode
      "This Houdini file is not a Shotgun Toolkit work file!" rfl rfl).2 rfl

theorem append_cache_ne_empty (s : String) : s ++ " Cache" ≠ "" := by
  intro h
  have h2 : s.data ++ " Cache".data = [] := by
    have h1 := congrArg String.data h
    rwa [string_append_data] at h1
  have h3 := List.append_eq_nil.mp h2
  exact absurd h3.2 (by decide)

/-- C10: in auto_publish, the published-file-type chain yields a
non-empty name for every cache-type extension (extensions other than
bgeo.sc, abc and exr fall through to the title-cased "Ext Cache"
default), so the "Could not find the cache_type" error branch is
unreachable; and whenever no prior publish exists for the cache path,
the backup-file publish is registered first and the cache publish is
registered right after it. -/
theorem c10_auto_publish_filetype_and_order
    (env : Env) (node : Node) (cachePath : String) (node1 : Node) (b : Bool)
    (ver : Int) (backupPath nodeName cacheType : String)
    (hcomp : compute_output_path env node = .ok (some cachePath, node1, b))
    (hfind : env.findPublishCount cachePath = 0)
    (hver : evalAsInt node1 "ver" = .ok ver)
    (hback : compute_backup_output_path env node1 = .ok backupPath)
    (hname : getNodeName node1 = .ok nodeName)
    (hext : getTypesExt node1 = .ok cacheType) :
    (∀ ct, ∃ t, computeFileTypeName ct = some t ∧ t ≠ "") ∧
    ∃ t, computeFileTypeName cacheType = some t ∧ t ≠ "" ∧
      auto_publish env node = .ok
        [PubAction.registerPublish backupPath nodeName "Backup File" ver (scanRefs env),
         PubAction.registerPublish cachePath nodeName t ver [backupPath]] := by
  have htot : ∀ ct, ∃ t, computeFileTypeName ct = some t ∧ t ≠ "" := by
    intro ct
    rw [computeFileTypeName]
    by_cases h1 : ct = "bgeo.sc"
    · rw [if_pos h1]
      exact ⟨_, rfl, by decide⟩
    · rw [if_neg h1]
      by_cases h2 : ct = "abc"
      · rw [if_pos h2]
        exact ⟨_, rfl, by decide⟩
      · rw [if_neg h2]
        by_cases h3 : ct = "exr"
        · rw [if_pos h3]
          exact ⟨_, rfl, by decide⟩
        · rw [if_neg h3]
          exact ⟨_, rfl, append_cache_ne_empty _⟩
  refine ⟨htot, ?_⟩
  obtain ⟨t, ht, htne⟩ := htot cacheType
  refine ⟨t, ht, htne, ?_⟩
  rw [auto_publish]
  simp only [hcomp, Bind.bind, Except.bind]
  rw [if_pos hfind]
  simp only [hver, hback, hname, hext, Bind.bind, Except.bind, ht]
  rw [if_pos htne]
  rfl

theorem c10_auto_publish_witness :
    (∃ t, computeFileTypeName "vdb" = some t ∧ t ≠ "") ∧
    ∃ t, computeFileTypeName "bgeo.sc" = some t ∧ t ≠ "" ∧
      auto_publish cEnv cNode = .ok
        [PubAction.registerPublish "/prod/backup/cache1_v3.hip" "cache1"
           "Backup File" 3 (scanRefs cEnv),
         PubAction.registerPublish c3Path "cache1" t 3
           ["/prod/backup/cache1_v3.hip"]] := by
  constructor
  · exact (c10_auto_publish_filetype_and_order cEnv cNode c3Path c3N1 true 3
      "/prod/backup/cache1_v3.hip" "cache1" "bgeo.sc"
      rfl rfl rfl rfl rfl rfl).1 "vdb"
  · exact (c10_auto_publish_filetype_and_order cEnv cNode c3Path c3N1 true 3
      "/prod/backup/cache1_v3.hip" "cache1" "bgeo.sc"
      rfl rfl rfl rfl rfl rfl).2
